import Mathlib

/-!
Shallow embedding of the ColumbiaCals backend availability-and-menu
normalization engine, `src/scrapers/columbia/scraper.py`.

Conventions of the embedding:
* Python `(hour, minute)` tuples become `Nat × Nat`.
* Python dicts used as ordered mappings (insertion-ordered in Python 3.7+)
  become association lists `List (key × value)`; iteration order is list order.
* Calendar dates become `Nat` via an order-preserving encoding
  (`year*10000 + month*100 + day`), so date comparison is `Nat` comparison.
* The wall clock read `now_ny()` is replaced by explicit parameters
  `day_name` (lowercased weekday, as produced by `strftime('%A').lower()`),
  `current_minutes` (`hour*60 + minute`) and `today` (the encoded date).
* Network fetch plus the `menu_data` regex/JSON extraction is replaced by an
  explicit `Except FetchFailure (Option (List Menu))` argument: `.error`
  stands for the exception paths of `scrape_dynamic_hall`, `.ok none` for a
  page without parsable `menu_data`, `.ok (some md)` for extracted data.
  The `scraped_at` timestamp field (pure wall-clock I/O) is not modelled.
* The Python key `end` is a Lean keyword, so the `Window` field is `stop`.
-/

/-- A meal window: `{"start": (h, m), "end": (h, m)}` in the schedule tables. -/
structure Window where
  start : Nat × Nat
  stop : Nat × Nat
deriving DecidableEq, Repr

/-- One weekday-scoped sub-schedule (`{"days": [...], "meals": {...}}`). -/
structure ScheduleVariant where
  days : List String
  meals : List (String × Window)
deriving DecidableEq, Repr

/-- A `HALL_MEAL_TIMES` entry: either the simple shape with top-level
`days`/`meals` keys, or the nested shape keyed by sub-schedule names. -/
inductive HallConfig where
  | simple (days : List String) (meals : List (String × Window))
  | nested (schedules : List (String × ScheduleVariant))
deriving DecidableEq, Repr

/-- A canonical menu item as built by the scraper. -/
structure Item where
  name : String
  description : Option String
  allergens : List String
  dietary_prefs : List String
deriving DecidableEq, Repr

/-- A canonical station `{"station": name, "items": [...]}`. -/
structure Station where
  station : String
  items : List Item
deriving DecidableEq, Repr

/-- A canonical meal `{"meal_type": ..., "time": ..., "stations": [...]}`. -/
structure Meal where
  meal_type : String
  time : Option String
  stations : List Station
deriving DecidableEq, Repr

/-- The per-venue record returned by the scraping functions.  Keys that a
given Python return dict omits are modelled as `none`. -/
structure HallRecord where
  name : String
  meals : List Meal
  status : String
  source : String
  operating_hours : Option String
  is_open : Option Bool
  error : Option String
deriving DecidableEq, Repr

/-- The hours shape of a `STATIC_MENU_LOCATIONS` entry: simple top-level
`days`/`hours` keys, or named sub-schedules each with `days`/`hours`. -/
inductive StaticHours where
  | simple (days : List String) (hours : Window)
  | nested (schedules : List (String × List String × Window))
deriving DecidableEq, Repr

/-- A `STATIC_MENU_LOCATIONS` entry. -/
structure StaticConfig where
  operating_hours : String
  shape : StaticHours
  menu_items : List Item
deriving DecidableEq, Repr

/-- Raw upstream date bound as handed to `parse_date_to_ny_date`: absent
(`None`/empty), present but unparseable by both accepted formats, or a
parseable date (already reduced to its NY-local encoded calendar date; the
ISO-8601/zoneinfo plumbing itself is outside the embedded core). -/
inductive RawDate where
  | absent
  | unparseable (s : String)
  | valid (d : Nat)
deriving DecidableEq, Repr

/-- `parse_date_to_ny_date`: `None`/empty and unparseable inputs yield
`None`; otherwise the NY-local calendar date. -/
def parse_date_to_ny_date : RawDate → Option Nat
  | .absent => none
  | .unparseable _ => none
  | .valid d => some d

/-- One raw item (`meals_paragraph` entry) of a dynamic-source fragment. -/
structure RawMeal where
  title : String
  meal_text : Option String
  allergens : List String
  prefs : List String
deriving DecidableEq, Repr

/-- One raw station of a dynamic-source fragment. -/
structure RawStation where
  station : List String
  meals_paragraph : List RawMeal
deriving DecidableEq, Repr

/-- One `date_range_fields` entry: a raw menu fragment. -/
structure DateRangeFields where
  date_from : RawDate
  date_to : RawDate
  menu_type : List String
  stations : List RawStation
deriving DecidableEq, Repr

/-- One entry of the extracted `menu_data` array. -/
structure Menu where
  date_range_fields : List DateRangeFields
deriving DecidableEq, Repr

/-- Ordered-dictionary lookup: the first entry with the given key wins
(Python dict indexing over the association-list model). -/
def dict_lookup {α : Type} : List (String × α) → String → Option α
  | [], _ => none
  | (k, v) :: rest, key => if k == key then some v else dict_lookup rest key

/-- `is_today_in_date_range`, with today's NY date passed explicitly. -/
def is_today_in_date_range (today : Nat) (dr : DateRangeFields) : Bool :=
  let date_from := parse_date_to_ny_date dr.date_from
  let date_to := parse_date_to_ny_date dr.date_to
  match date_from, date_to with
  | none, none => true
  | some f, some t => decide (f ≤ today) && decide (today ≤ t)
  | some f, none => decide (today = f)
  | none, some t => decide (today = t)

/-- Zero-padded two-digit rendering of a minute value (`{minute:02d}`). -/
def pad2 (n : Nat) : String :=
  if n < 10 then "0" ++ toString n else toString n

/-- `format_time_tuple`. -/
def format_time_tuple (hour minute : Nat) : String :=
  if hour = 0 then "12:00 AM"
  else if hour < 12 then toString hour ++ ":" ++ pad2 minute ++ " AM"
  else if hour = 12 then "12:" ++ pad2 minute ++ " PM"
  else toString (hour - 12) ++ ":" ++ pad2 minute ++ " PM"

/-- `get_meal_times_for_hall`, with the schedule table and the lowercased
weekday name passed explicitly. -/
def get_meal_times_for_hall (catalog : List (String × HallConfig))
    (hall_name day_name : String) : Option (List (String × Window)) :=
  match dict_lookup catalog hall_name with
  | none => none
  | some (.simple days meals) =>
    if days.contains day_name then some meals else none
  | some (.nested schedules) =>
    match schedules.find? (fun p => p.2.days.contains day_name) with
    | some p => some p.2.meals
    | none => none

/-- Start of a window in minutes since midnight. -/
def start_minutes (w : Window) : Nat := w.start.1 * 60 + w.start.2

/-- End of a window in minutes since midnight. -/
def stop_minutes (w : Window) : Nat := w.stop.1 * 60 + w.stop.2

/-- The per-window membership test inside `is_hall_open_now` and
`get_current_meal_for_hall` (lines 437-449 and 463-475 of the source). -/
def window_matches (w : Window) (current_minutes : Nat) : Bool :=
  if stop_minutes w < start_minutes w then
    decide (current_minutes ≥ start_minutes w) || decide (current_minutes < stop_minutes w)
  else
    decide (start_minutes w ≤ current_minutes) && decide (current_minutes < stop_minutes w)

/-- `is_hall_open_now`. -/
def is_hall_open_now (catalog : List (String × HallConfig))
    (hall_name day_name : String) (current_minutes : Nat) : Bool :=
  match get_meal_times_for_hall catalog hall_name day_name with
  | none => false
  | some meal_times => meal_times.any (fun p => window_matches p.2 current_minutes)

/-- `get_current_meal_for_hall`: first declared window containing now. -/
def get_current_meal_for_hall (catalog : List (String × HallConfig))
    (hall_name day_name : String) (current_minutes : Nat) : Option String :=
  match get_meal_times_for_hall catalog hall_name day_name with
  | none => none
  | some meal_times =>
    (meal_times.find? (fun p => window_matches p.2 current_minutes)).map Prod.fst

/-- `is_static_hall_open`, including the `end == (0, 0)` midnight special
case (the reassignment of `end_minutes` to `24*60` followed by the shared
final interval test). -/
def is_static_hall_open (static_catalog : List (String × StaticConfig))
    (hall_name day_name : String) (current_minutes : Nat) : Bool :=
  match dict_lookup static_catalog hall_name with
  | none => false
  | some config =>
    let hours_config : Option Window :=
      match config.shape with
      | .simple days hours => if days.contains day_name then some hours else none
      | .nested schedules =>
        match schedules.find? (fun p => p.2.1.contains day_name) with
        | some p => some p.2.2
        | none => none
    match hours_config with
    | none => false
    | some w =>
      let s := start_minutes w
      let e := stop_minutes w
      if e < s || (w.stop.1 == 0 && w.stop.2 == 0) then
        if w.stop.1 == 0 && w.stop.2 == 0 then
          decide (s ≤ current_minutes) && decide (current_minutes < 24 * 60)
        else
          decide (current_minutes ≥ s) || decide (current_minutes < e)
      else
        decide (s ≤ current_minutes) && decide (current_minutes < e)

/-- `get_operating_hours_display` (static catalog first, then the simple
dynamic shape; the nested dynamic shape yields `None`). -/
def get_operating_hours_display (static_catalog : List (String × StaticConfig))
    (dynamic_catalog : List (String × HallConfig)) (hall_name : String) : Option String :=
  match dict_lookup static_catalog hall_name with
  | some config => some config.operating_hours
  | none =>
    match dict_lookup dynamic_catalog hall_name with
    | some (.simple days meals) =>
      match meals.head?, meals.getLast? with
      | some first_meal, some last_meal =>
        some (String.intercalate ", " (days.map String.capitalize) ++ ": " ++
          format_time_tuple first_meal.2.start.1 first_meal.2.start.2 ++ " - " ++
          format_time_tuple last_meal.2.stop.1 last_meal.2.stop.2)
      | _, _ => none
    | some (.nested _) => none
    | none => none

/-- The inline station id to name table of `scrape_dynamic_hall`. -/
def station_names : List (String × String) :=
  [("10", "Smoothie Bar"), ("12", "Kosher Station"), ("16", "Halal Station"),
   ("24", "Main Station"), ("27", "Bakery"), ("28", "Soup & Oatmeal"),
   ("29", "Vegan Station"), ("33", "Grill"), ("100", "Asian Station"),
   ("159", "Pasta Station")]

/-- `station_names.get(station_ids[0] if station_ids else "", "Station")`. -/
def resolve_station_name (station_ids : List String) : String :=
  match dict_lookup station_names (station_ids.headD "") with
  | some n => n
  | none => "Station"

/-- The `VALID_MEAL_TYPES` table of `scrape_dynamic_hall`. -/
def VALID_MEAL_TYPES : List (String × String) :=
  [("6", "Breakfast"), ("7", "Lunch"), ("8", "Dinner")]

/-- The meal-type mapping of lines 670-673: first `menu_type` code looked up
in `VALID_MEAL_TYPES`; `none` when the list is empty or the code is unmapped. -/
def mapped_meal_type (dr : DateRangeFields) : Option String :=
  match dr.menu_type.head? with
  | none => none
  | some code => dict_lookup VALID_MEAL_TYPES code

/-- The guard `meal_times and meal_type not in meal_times` of line 676:
blocks only when a schedule was found, it is non-empty (Python truthiness of
the dict), and the meal type is not among its keys. -/
def meal_type_guard_blocks (meal_times : Option (List (String × Window)))
    (meal_type : String) : Bool :=
  match meal_times with
  | none => false
  | some l => !l.isEmpty && !(l.map Prod.fst).contains meal_type

/-- Python `str.strip()`: drop leading and trailing whitespace (written
over the character list so that it evaluates inside the kernel). -/
def py_strip (s : String) : String :=
  ⟨((s.data.dropWhile Char.isWhitespace).reverse.dropWhile Char.isWhitespace).reverse⟩

/-- Item construction of lines 691-696 (stripped title; empty `meal_text`
is falsy in Python and becomes `None`). -/
def build_item (meal : RawMeal) : Item :=
  { name := py_strip meal.title
  , description :=
      match meal.meal_text with
      | some s => if s = "" then none else some (py_strip s)
      | none => none
  , allergens := meal.allergens
  , dietary_prefs := meal.prefs }

/-- Item list of one raw station after the `len(name) > 2` noise filter. -/
def build_items (meals_paragraph : List RawMeal) : List Item :=
  (meals_paragraph.map build_item).filter
    (fun it => !(it.name == "") && decide (it.name.length > 2))

/-- Stations of one fragment (lines 680-705): resolve the station name,
build the filtered items, keep only stations with at least one item. -/
def build_stations (stations : List RawStation) : List Station :=
  stations.filterMap (fun st =>
    let items := build_items st.meals_paragraph
    if items.isEmpty then none
    else some { station := resolve_station_name st.station, items := items })

/-- The item merge of lines 719-723: walk the new items, appending each one
whose name is not yet present (the Python `existing_names` set is exactly
the set of names of the accumulated list). -/
def merge_items (existing new_items : List Item) : List Item :=
  new_items.foldl
    (fun acc it => if (acc.map Item.name).contains it.name then acc else acc ++ [it])
    existing

/-- Merging one new station into the station list (lines 714-727): the
first existing station with the same name absorbs the items, otherwise the
new station is appended verbatim. -/
def merge_station : List Station → Station → List Station
  | [], ns => [ns]
  | st :: rest, ns =>
    if st.station == ns.station then
      { st with items := merge_items st.items ns.items } :: rest
    else
      st :: merge_station rest ns

/-- Merging a fragment's stations one by one. -/
def merge_stations (existing_stations new_stations : List Station) : List Station :=
  new_stations.foldl merge_station existing_stations

/-- Point update of the first entry with the given key in an ordered
association list (in-place dict value mutation in the Python). -/
def update_assoc {α : Type} : List (String × α) → String → (α → α) → List (String × α)
  | [], _, _ => []
  | (k, v) :: rest, key, f =>
    if k == key then (k, f v) :: rest else (k, v) :: update_assoc rest key f

/-- Lines 708-727: record a fragment's stations under its meal type, first
inserting an empty entry for a new meal type, then merging. -/
def add_fragment_stations (meals_by_type : List (String × List Station))
    (meal_type : String) (stations_data : List Station) : List (String × List Station) :=
  if stations_data.isEmpty then meals_by_type
  else
    let with_key :=
      if (dict_lookup meals_by_type meal_type).isSome then meals_by_type
      else meals_by_type ++ [(meal_type, [])]
    update_assoc with_key meal_type (fun stations => merge_stations stations stations_data)

/-- Processing of one `date_range_fields` entry (lines 663-727): the date
filter, the meal-type mapping, the schedule guard, then the station merge. -/
def process_date_range (meal_times : Option (List (String × Window))) (today : Nat)
    (meals_by_type : List (String × List Station)) (dr : DateRangeFields) :
    List (String × List Station) :=
  if !(is_today_in_date_range today dr) then meals_by_type
  else
    match mapped_meal_type dr with
    | none => meals_by_type
    | some meal_type =>
      if meal_type_guard_blocks meal_times meal_type then meals_by_type
      else add_fragment_stations meals_by_type meal_type (build_stations dr.stations)

/-- Folding a list of fragments into the `meals_by_type` accumulator. -/
def normalize_state (meal_times : Option (List (String × Window))) (today : Nat)
    (fragments : List DateRangeFields) : List (String × List Station) :=
  fragments.foldl (process_date_range meal_times today) []

/-- The double loop of lines 660-727 over all menus and their fragments. -/
def collect_meals_by_type (meal_times : Option (List (String × Window))) (today : Nat)
    (menu_data : List Menu) : List (String × List Station) :=
  normalize_state meal_times today ((menu_data.map Menu.date_range_fields).flatten)

/-- The fixed assembly order of line 731. -/
def meal_order : List String := ["Breakfast", "Lunch", "Dinner"]

/-- The time label of lines 736-741: present only when a non-empty schedule
declares the meal type, and then formatted from the window bounds. -/
def meal_time_label (meal_times : Option (List (String × Window)))
    (meal_type : String) : Option String :=
  match meal_times with
  | none => none
  | some l =>
    if l.isEmpty then none
    else
      match dict_lookup l meal_type with
      | none => none
      | some w =>
        some (format_time_tuple w.start.1 w.start.2 ++ " - " ++
          format_time_tuple w.stop.1 w.stop.2)

/-- Assembly of one meal type (the body of the loop at lines 733-747). -/
def assemble_one (meal_times : Option (List (String × Window)))
    (meals_by_type : List (String × List Station)) (meal_type : String) : Option Meal :=
  match dict_lookup meals_by_type meal_type with
  | none => none
  | some stations =>
    if stations.isEmpty then none
    else some { meal_type := meal_type
              , time := meal_time_label meal_times meal_type
              , stations := stations }

/-- Final meal assembly of lines 729-747. -/
def assemble_meals (meal_times : Option (List (String × Window)))
    (meals_by_type : List (String × List Station)) : List Meal :=
  meal_order.filterMap (assemble_one meal_times meals_by_type)

/-- The exception paths of `scrape_dynamic_hall` (lines 767-802): an
`HTTPError` (classified by whether its text contains "503"), another
`RequestException`, or any other exception. -/
inductive FetchFailure where
  | httpError (msg : String)
  | requestException (msg : String)
  | otherException (msg : String)
deriving DecidableEq, Repr

/-- Substring test standing for Python's `'503' in str(e)`. -/
def str_contains (hay needle : String) : Bool :=
  (List.range (hay.data.length + 1)).any (fun i => needle.data.isPrefixOf (hay.data.drop i))

/-- The status produced by each exception handler. -/
def failure_status : FetchFailure → String
  | .httpError msg => if str_contains msg "503" then "service_unavailable" else "error"
  | .requestException _ => "network_error"
  | .otherException _ => "error"

/-- The `error` field produced by each exception handler. -/
def failure_error_message : FetchFailure → String
  | .httpError msg =>
    if str_contains msg "503" then "Columbia Dining website is temporarily down" else msg
  | .requestException _ => "Unable to reach Columbia Dining website"
  | .otherException msg => msg

/-- `scrape_dynamic_hall` as a function of the explicit clock/date inputs
and the fetch-plus-extraction outcome. -/
def scrape_dynamic_hall (dynamic_catalog : List (String × HallConfig))
    (static_catalog : List (String × StaticConfig))
    (hall_name day_name : String) (current_minutes today : Nat)
    (fetch : Except FetchFailure (Option (List Menu))) : HallRecord :=
  match fetch with
  | .error e =>
    { name := hall_name, meals := [], status := failure_status e, source := "columbia"
    , operating_hours := none, is_open := none, error := some (failure_error_message e) }
  | .ok menu_data =>
    let meal_times := get_meal_times_for_hall dynamic_catalog hall_name day_name
    let is_open := is_hall_open_now dynamic_catalog hall_name day_name current_minutes
    let operating_hours := get_operating_hours_display static_catalog dynamic_catalog hall_name
    match menu_data with
    | none =>
      { name := hall_name, meals := []
      , status := if is_open then "open_no_menu" else "closed"
      , source := "columbia", operating_hours := operating_hours
      , is_open := some is_open, error := none }
    | some md =>
      let meals := assemble_meals meal_times (collect_meals_by_type meal_times today md)
      { name := hall_name, meals := meals
      , status := if meals.isEmpty then (if is_open then "open_no_menu" else "closed") else "open"
      , source := "columbia", operating_hours := operating_hours
      , is_open := some is_open, error := none }

/-- `scrape_static_hall`. -/
def scrape_static_hall (static_catalog : List (String × StaticConfig))
    (hall_name day_name : String) (current_minutes : Nat) : HallRecord :=
  match dict_lookup static_catalog hall_name with
  | none =>
    { name := hall_name, meals := [], status := "closed", source := "columbia"
    , operating_hours := none, is_open := none, error := none }
  | some config =>
    let is_open := is_static_hall_open static_catalog hall_name day_name current_minutes
    let meals : List Meal :=
      if is_open then
        [{ meal_type := "All Day", time := some config.operating_hours
         , stations := [{ station := "Menu", items := config.menu_items }] }]
      else []
    { name := hall_name, meals := meals
    , status := if is_open then "open" else "closed"
    , source := "columbia"
    , operating_hours := some config.operating_hours
    , is_open := some is_open, error := none }

/-- The `HALL_MEAL_TIMES` schedule table. -/
def HALL_MEAL_TIMES : List (String × HallConfig) :=
  [ ("John Jay Dining Hall", .simple
      ["sunday", "monday", "tuesday", "wednesday", "thursday"]
      [("Breakfast", ⟨(9, 30), (11, 0)⟩), ("Lunch", ⟨(11, 0), (14, 30)⟩),
       ("Dinner", ⟨(17, 0), (21, 0)⟩)])
  , ("Ferris Booth Commons", .nested
      [ ("weekday", ⟨["monday", "tuesday", "wednesday", "thursday", "friday"],
          [("Breakfast", ⟨(7, 30), (10, 30)⟩), ("Lunch", ⟨(11, 0), (15, 0)⟩),
           ("Dinner", ⟨(17, 0), (20, 0)⟩)]⟩)
      , ("saturday", ⟨["saturday"],
          [("Breakfast", ⟨(9, 0), (11, 0)⟩), ("Lunch", ⟨(11, 0), (15, 0)⟩),
           ("Dinner", ⟨(17, 0), (20, 0)⟩)]⟩)
      , ("sunday", ⟨["sunday"],
          [("Lunch", ⟨(10, 0), (14, 0)⟩), ("Dinner", ⟨(16, 0), (20, 0)⟩)]⟩)])
  , ("Chef Mike\x27s", .nested
      [ ("weekday", ⟨["monday", "tuesday", "wednesday", "thursday", "friday"],
          [("Lunch", ⟨(10, 30), (15, 0)⟩), ("Dinner", ⟨(17, 0), (22, 0)⟩)]⟩)
      , ("saturday", ⟨["saturday"],
          [("Lunch", ⟨(11, 0), (15, 0)⟩), ("Dinner", ⟨(15, 0), (19, 0)⟩)]⟩)])
  , ("Grace Dodge", .simple
      ["monday", "tuesday", "wednesday", "thursday"]
      [("Lunch", ⟨(11, 0), (14, 30)⟩), ("Dinner", ⟨(14, 30), (19, 30)⟩)])
  , ("Faculty House 2nd Floor", .simple
      ["monday", "tuesday", "wednesday", "thursday"]
      [("Lunch", ⟨(11, 0), (14, 30)⟩)])
  , ("Faculty House Skyline", .simple
      ["monday", "tuesday", "wednesday", "thursday"]
      [("Lunch", ⟨(11, 0), (14, 30)⟩)])
  , ("Johnny\x27s", .nested
      [ ("mon_wed", ⟨["monday", "tuesday", "wednesday"],
          [("Lunch", ⟨(11, 0), (14, 30)⟩)]⟩)
      , ("thu_fri", ⟨["thursday", "friday"],
          [("Lunch", ⟨(11, 0), (14, 30)⟩), ("Dinner", ⟨(19, 0), (23, 0)⟩)]⟩)
      , ("saturday", ⟨["saturday"], [("Dinner", ⟨(19, 0), (23, 0)⟩)]⟩)
      , ("sunday", ⟨["sunday"], [("Dinner", ⟨(18, 0), (22, 0)⟩)]⟩)])
  , ("Fac Shack", .nested
      [ ("weekday", ⟨["monday", "tuesday", "wednesday", "thursday"],
          [("Lunch", ⟨(12, 0), (15, 0)⟩), ("Dinner", ⟨(17, 0), (20, 0)⟩)]⟩)
      , ("sunday", ⟨["sunday"], [("Dinner", ⟨(15, 0), (20, 0)⟩)]⟩)])
  ]

/-- The `JJ's Place` entry of `STATIC_MENU_LOCATIONS`. -/
def jjs_place_config : StaticConfig :=
  { operating_hours := "Open daily 12:00 p.m. - 10:00 a.m."
  , shape := .simple
      ["monday", "tuesday", "wednesday", "thursday", "friday", "saturday", "sunday"]
      ⟨(12, 0), (10, 0)⟩
  , menu_items :=
    [ ⟨"Hamburger", some "Classic beef burger", ["Gluten"], []⟩
    , ⟨"Cheeseburger", some "Beef burger with cheese", ["Gluten", "Dairy"], []⟩
    , ⟨"Fried Chicken Burger", some "Crispy fried chicken sandwich", ["Gluten"], []⟩
    , ⟨"Chicken Nuggets", some "Breaded chicken nuggets", ["Gluten"], []⟩
    , ⟨"Chicken Tenders", some "Breaded chicken tenders", ["Gluten"], []⟩
    , ⟨"French Fries", some "Crispy golden fries", [], ["Vegan", "Gluten Free"]⟩
    , ⟨"Quesadilla", some "Cheese quesadilla", ["Dairy", "Gluten"], ["Vegetarian"]⟩
    , ⟨"Pancakes", some "Fluffy pancakes", ["Gluten", "Eggs", "Dairy"], ["Vegetarian"]⟩
    , ⟨"Chocolate Chip Pancakes", some "Pancakes with chocolate chips",
        ["Gluten", "Eggs", "Dairy"], ["Vegetarian"]⟩
    , ⟨"French Toast", some "Classic french toast", ["Gluten", "Eggs", "Dairy"],
        ["Vegetarian"]⟩ ] }

/-- The `Blue Java Butler` entry of `STATIC_MENU_LOCATIONS`. -/
def blue_java_butler_config : StaticConfig :=
  { operating_hours := "Monday - Thursday, 8 a.m. - 12 a.m. | Friday - Sunday, 9 a.m. - 9 p.m."
  , shape := .nested
      [ ("weekday", (["monday", "tuesday", "wednesday", "thursday"], ⟨(8, 0), (0, 0)⟩))
      , ("weekend", (["friday", "saturday", "sunday"], ⟨(9, 0), (21, 0)⟩)) ]
  , menu_items :=
    [ ⟨"Hot Espresso Beverages", some "Lattes, cappuccinos, americanos", ["Dairy"], []⟩
    , ⟨"Iced Espresso Beverages", some "Iced lattes, iced cappuccinos", ["Dairy"], []⟩
    , ⟨"Iced Coffee", some "Cold brewed iced coffee", [], ["Vegan"]⟩
    , ⟨"Hot Brewed Coffee", some "Fresh hot coffee", [], ["Vegan"]⟩
    , ⟨"Cold Brew Coffee", some "Slow-steeped cold brew", [], ["Vegan"]⟩
    , ⟨"Paninis", some "Assorted grilled paninis", ["Gluten", "Dairy"], []⟩
    , ⟨"Republic of Tea", some "Premium tea selection", [], ["Vegan"]⟩
    , ⟨"Specialty Teas", some "Assorted specialty teas", [], ["Vegan"]⟩
    , ⟨"Assorted Muffins", some "Various muffin flavors", ["Gluten", "Eggs", "Dairy"],
        ["Vegetarian"]⟩
    , ⟨"Assorted Pastries", some "Fresh baked pastries", ["Gluten", "Eggs", "Dairy"],
        ["Vegetarian"]⟩
    , ⟨"Chilled Drinks", some "Bottled beverages and juices", [], ["Vegan"]⟩
    , ⟨"Assorted Fruit", some "Fresh fruit cups", [], ["Vegan", "Gluten Free"]⟩
    , ⟨"Assorted Snacks", some "Grab and go snacks", [], []⟩ ] }

/-- The shared item list of the Uris, Mudd and Everett Blue Java cafes. -/
def blue_java_cafe_items : List Item :=
  [ ⟨"Hot Espresso Beverages", some "Lattes, cappuccinos, americanos", ["Dairy"], []⟩
  , ⟨"Iced Espresso Beverages", some "Iced lattes, iced cappuccinos", ["Dairy"], []⟩
  , ⟨"Iced Coffee", some "Cold brewed iced coffee", [], ["Vegan"]⟩
  , ⟨"Hot Brewed Coffee", some "Fresh hot coffee", [], ["Vegan"]⟩
  , ⟨"Cold Brew Coffee", some "Slow-steeped cold brew", [], ["Vegan"]⟩
  , ⟨"Paninis", some "Assorted grilled paninis", ["Gluten", "Dairy"], []⟩
  , ⟨"Republic of Tea", some "Premium tea selection", [], ["Vegan"]⟩
  , ⟨"Assorted Muffins", some "Various muffin flavors", ["Gluten", "Eggs", "Dairy"],
      ["Vegetarian"]⟩
  , ⟨"Assorted Pastries", some "Fresh baked pastries", ["Gluten", "Eggs", "Dairy"],
      ["Vegetarian"]⟩
  , ⟨"Chilled Drinks", some "Bottled beverages and juices", [], ["Vegan"]⟩
  , ⟨"Assorted Fruit", some "Fresh fruit cups", [], ["Vegan", "Gluten Free"]⟩
  , ⟨"Assorted Snacks", some "Grab and go snacks", [], []⟩ ]

/-- The shared item list of Lenfest Cafe and Robert F. Smith. -/
def lenfest_style_items : List Item :=
  [ ⟨"Hot Espresso Beverages", some "Lattes, cappuccinos, americanos", ["Dairy"], []⟩
  , ⟨"Iced Coffee", some "Cold brewed iced coffee", [], ["Vegan"]⟩
  , ⟨"Hot Brewed Coffee", some "Fresh hot coffee", [], ["Vegan"]⟩
  , ⟨"Sandwiches", some "Fresh made sandwiches", ["Gluten"], []⟩
  , ⟨"Salads", some "Fresh salads", [], ["Vegetarian"]⟩
  , ⟨"Assorted Pastries", some "Fresh baked pastries", ["Gluten", "Eggs", "Dairy"],
      ["Vegetarian"]⟩
  , ⟨"Chilled Drinks", some "Bottled beverages and juices", [], ["Vegan"]⟩
  , ⟨"Assorted Snacks", some "Grab and go snacks", [], []⟩ ]

/-- The `STATIC_MENU_LOCATIONS` table. -/
def STATIC_MENU_LOCATIONS : List (String × StaticConfig) :=
  [ ("JJ\x27s Place", jjs_place_config)
  , ("Blue Java Butler", blue_java_butler_config)
  , ("Blue Java Uris",
      { operating_hours := "Monday - Friday: 8:00 a.m. - 5:30 p.m."
      , shape := .simple ["monday", "tuesday", "wednesday", "thursday", "friday"]
          ⟨(8, 0), (17, 30)⟩
      , menu_items := blue_java_cafe_items })
  , ("Blue Java Mudd",
      { operating_hours := "Monday - Friday: 8 a.m. - 6 p.m."
      , shape := .simple ["monday", "tuesday", "wednesday", "thursday", "friday"]
          ⟨(8, 0), (18, 0)⟩
      , menu_items := blue_java_cafe_items })
  , ("Blue Java Everett",
      { operating_hours := "Monday - Thursday, 8:00 a.m. - 7:30 p.m. | Friday, 8:00 a.m. - 2:30 p.m."
      , shape := .nested
          [ ("weekday", (["monday", "tuesday", "wednesday", "thursday"], ⟨(8, 0), (19, 30)⟩))
          , ("friday", (["friday"], ⟨(8, 0), (14, 30)⟩)) ]
      , menu_items := blue_java_cafe_items })
  , ("Lenfest Cafe",
      { operating_hours := "Monday - Thursday: 8:00 a.m. - 6:30 p.m. | Friday: 8:00 a.m. - 3:00 p.m."
      , shape := .nested
          [ ("weekday", (["monday", "tuesday", "wednesday", "thursday"], ⟨(8, 0), (18, 30)⟩))
          , ("friday", (["friday"], ⟨(8, 0), (15, 0)⟩)) ]
      , menu_items := lenfest_style_items })
  , ("Robert F. Smith",
      { operating_hours := "Monday - Thursday, 8 a.m. - 4:30 p.m. | Friday, 8 a.m. - 4 p.m."
      , shape := .nested
          [ ("weekday", (["monday", "tuesday", "wednesday", "thursday"], ⟨(8, 0), (16, 30)⟩))
          , ("friday", (["friday"], ⟨(8, 0), (16, 0)⟩)) ]
      , menu_items := lenfest_style_items })
  ]

/-- A one-hall schedule catalog whose only variant applies on Mondays. -/
def c4_catalog : List (String × HallConfig) :=
  [("Demo Hall", .simple ["monday"] [("Lunch", ⟨(11, 0), (14, 30)⟩)])]

/-- A Lunch fragment with one Grill station and one item. -/
def c4_fragment : DateRangeFields :=
  { date_from := .absent, date_to := .absent, menu_type := ["7"]
  , stations := [⟨["33"], [⟨"Pasta Primavera", none, [], []⟩]⟩] }

/-- A Lunch fragment whose single station carries two items with the same
name and different metadata. -/
def c6_fragment : DateRangeFields :=
  { date_from := .absent, date_to := .absent, menu_type := ["7"]
  , stations := [⟨["33"], [⟨"Pizza", some "first", [], []⟩,
                           ⟨"Pizza", some "second", [], []⟩]⟩] }

/-- The end-to-end example fragment: one Lunch fragment with station Grill
containing one sandwich. -/
def c9_fragment : DateRangeFields :=
  { date_from := .absent, date_to := .absent, menu_type := ["7"]
  , stations := [⟨["33"], [⟨"Grilled Chicken Sandwich", none, [], []⟩]⟩] }

/-- A Lunch fragment with an unknown station id. -/
def c10_fragment_a : DateRangeFields :=
  { date_from := .absent, date_to := .absent, menu_type := ["7"]
  , stations := [⟨["999"], [⟨"Mystery Stew", none, [], []⟩]⟩] }

/-- A second Lunch fragment with a different unknown station id, carrying a
fresh item and a same-named duplicate of the first fragment's item. -/
def c10_fragment_b : DateRangeFields :=
  { date_from := .absent, date_to := .absent, menu_type := ["7"]
  , stations := [⟨["777"], [⟨"Mystery Pie", none, [], []⟩,
                            ⟨"Mystery Stew", some "dup", [], []⟩]⟩] }

/-- The item names of a station's item list. -/
def item_names (items : List Item) : List String := items.map Item.name

/-- The station names of a station list. -/
def station_keys (stations : List Station) : List String := stations.map Station.station

/-- Every station in the list has pairwise-distinct item names. -/
def stations_items_nodup (stations : List Station) : Prop :=
  ∀ st ∈ stations, (item_names st.items).Nodup

/-- Every meal group in the accumulator has stations with pairwise-distinct
item names. -/
def mbt_items_nodup (mbt : List (String × List Station)) : Prop :=
  ∀ p ∈ mbt, stations_items_nodup p.2

/-- Every meal group in the accumulator has pairwise-distinct station names. -/
def mbt_station_keys_nodup (mbt : List (String × List Station)) : Prop :=
  ∀ p ∈ mbt, (station_keys p.2).Nodup

/-- The first existing station with a given name, as scanned by the merge
loop of lines 716-725. -/
def first_station (l : List Station) (s : String) : Option Station :=
  l.find? (fun st => st.station == s)

/-- A station list already covers a new station: the first station with the
same name exists and already holds every incoming item name.  Merging such
a station is a no-op. -/
def station_covered (l : List Station) (ns : Station) : Prop :=
  ∃ st, first_station l ns.station = some st ∧
    ∀ it ∈ ns.items, it.name ∈ item_names st.items

/-- Each fragment processed twice in a row, the duplicated input of the
merge idempotence property. -/
def duplicate_fragments (fragments : List DateRangeFields) : List DateRangeFields :=
  fragments.foldr (fun f acc => f :: f :: acc) []

/-- Whether the accumulator holds a non-empty station list for a meal type
(the emission test of line 734). -/
def has_nonempty_meal (meals_by_type : List (String × List Station)) (m : String) : Bool :=
  match dict_lookup meals_by_type m with
  | some stations => !stations.isEmpty
  | none => false

/-- All the per-fragment survival conditions of lines 663-701 bundled for
one target meal type: the fragment passes the date filter, maps to that
meal type, survives the declared-name guard, and has at least one station
left after item pruning. -/
def fragment_contributes_to (meal_times : Option (List (String × Window))) (today : Nat)
    (dr : DateRangeFields) (m : String) : Bool :=
  is_today_in_date_range today dr && decide (mapped_meal_type dr = some m) &&
    !meal_type_guard_blocks meal_times m && !(build_stations dr.stations).isEmpty

/-- The meal names declared by each variant of a hall configuration, in
declaration order. -/
def variant_meal_names : HallConfig → List (List String)
  | .simple _ meals => [meals.map Prod.fst]
  | .nested schedules => schedules.map (fun p => p.2.meals.map Prod.fst)

/-- The window membership rule exactly as the specification words it: a
direct interval test when `end_minutes > start_minutes`, and the
midnight-crossing disjunction whenever `end_minutes <= start_minutes`. -/
def claimed_window_matches (w : Window) (current_minutes : Nat) : Bool :=
  if stop_minutes w > start_minutes w then
    decide (start_minutes w ≤ current_minutes) && decide (current_minutes < stop_minutes w)
  else
    decide (current_minutes ≥ start_minutes w) || decide (current_minutes < stop_minutes w)

/-- The membership rule the code actually implements: the midnight-crossing
disjunction only when `end_minutes < start_minutes` strictly; a window with
`end_minutes = start_minutes` matches no instant. -/
def amended_window_matches (w : Window) (current_minutes : Nat) : Bool :=
  if start_minutes w < stop_minutes w then
    decide (start_minutes w ≤ current_minutes) && decide (current_minutes < stop_minutes w)
  else if stop_minutes w < start_minutes w then
    decide (current_minutes ≥ start_minutes w) || decide (current_minutes < stop_minutes w)
  else false

/-- C1 counterexample: for the degenerate window 11:00-11:00 at 12:00 noon,
the claimed rule (`end_minutes <= start_minutes` crosses midnight) says the
window matches, but the code's membership test says it does not. -/
theorem c1_counterexample :
    claimed_window_matches ⟨(11, 0), (11, 0)⟩ 720 = true
    ∧ window_matches ⟨(11, 0), (11, 0)⟩ 720 = false := by
  decide

/-- C1 (amended): window membership is the direct interval test when
`end_minutes > start_minutes`, the midnight-crossing disjunction when
`end_minutes < start_minutes` strictly, and empty when the two are equal;
for a window 12:00-10:00 the venue is open at 23:00 and at 06:30 and not
open at 11:00. -/
theorem c1_time_window_membership_amended :
    (∀ w current_minutes, window_matches w current_minutes =
        amended_window_matches w current_minutes)
    ∧ is_hall_open_now [("Demo Venue", .simple ["monday"]
        [("All Day", ⟨(12, 0), (10, 0)⟩)])] "Demo Venue" "monday" (23 * 60) = true
    ∧ is_hall_open_now [("Demo Venue", .simple ["monday"]
        [("All Day", ⟨(12, 0), (10, 0)⟩)])] "Demo Venue" "monday" (6 * 60 + 30) = true
    ∧ is_hall_open_now [("Demo Venue", .simple ["monday"]
        [("All Day", ⟨(12, 0), (10, 0)⟩)])] "Demo Venue" "monday" (11 * 60) = false := by
  refine ⟨fun w n => ?_, by decide, by decide, by decide⟩
  simp only [window_matches, amended_window_matches]
  by_cases h1 : stop_minutes w < start_minutes w
  · simp [h1, show ¬ start_minutes w < stop_minutes w by omega]
  · by_cases h2 : start_minutes w < stop_minutes w
    · simp [h1, h2]
    · have h3 : stop_minutes w = start_minutes w := by omega
      simp only [if_neg h1, if_neg h2, h3]
      by_cases h4 : start_minutes w ≤ n
      · simp [h4, show ¬ n < start_minutes w by omega]
      · simp [h4]

/-- C2: the date range filter passes everything when both bounds are absent,
requires equality with the single present bound, is the inclusive interval
test when both bounds are present, treats unparseable bounds as absent, and
behaves as claimed on the 2024-01-10..2024-01-12 example. -/
theorem c2_date_range_filter :
    (∀ today mt sts, is_today_in_date_range today ⟨.absent, .absent, mt, sts⟩ = true)
    ∧ (∀ today a mt sts,
        is_today_in_date_range today ⟨.valid a, .absent, mt, sts⟩ = true ↔ today = a)
    ∧ (∀ today b mt sts,
        is_today_in_date_range today ⟨.absent, .valid b, mt, sts⟩ = true ↔ today = b)
    ∧ (∀ today a b mt sts,
        is_today_in_date_range today ⟨.valid a, .valid b, mt, sts⟩ = true ↔
          a ≤ today ∧ today ≤ b)
    ∧ (∀ today s d2 mt sts,
        is_today_in_date_range today ⟨.unparseable s, d2, mt, sts⟩ =
          is_today_in_date_range today ⟨.absent, d2, mt, sts⟩)
    ∧ (∀ today s d1 mt sts,
        is_today_in_date_range today ⟨d1, .unparseable s, mt, sts⟩ =
          is_today_in_date_range today ⟨d1, .absent, mt, sts⟩)
    ∧ is_today_in_date_range 20240111 ⟨.valid 20240110, .valid 20240112, [], []⟩ = true
    ∧ is_today_in_date_range 20240113 ⟨.valid 20240110, .valid 20240112, [], []⟩ = false := by
  refine ⟨?_, ?_, ?_, ?_, ?_, ?_, by decide, by decide⟩
  · intro today mt sts; rfl
  · intro today a mt sts
    simp [is_today_in_date_range, parse_date_to_ny_date]
  · intro today b mt sts
    simp [is_today_in_date_range, parse_date_to_ny_date]
  · intro today a b mt sts
    simp [is_today_in_date_range, parse_date_to_ny_date]
  · intro today s d2 mt sts; rfl
  · intro today s d1 mt sts
    cases d1 <;> rfl

/-- C3: an upstream fetch/transport failure's status (one of
`network_error`, `service_unavailable`, `error`) is passed through
unchanged with an empty meal list; otherwise the status is `open` when the
meal list is non-empty, `open_no_menu` when it is empty and the hall is
open, and `closed` when it is empty and the hall is not open. -/
theorem c3_status_classifier :
    (∀ cat scat hall day cur today e,
        (scrape_dynamic_hall cat scat hall day cur today (.error e)).status = failure_status e
        ∧ (scrape_dynamic_hall cat scat hall day cur today (.error e)).meals = []
        ∧ failure_status e ∈ ["network_error", "service_unavailable", "error"])
    ∧ (∀ cat scat hall day cur today md,
        (scrape_dynamic_hall cat scat hall day cur today (.ok md)).status =
          (if (scrape_dynamic_hall cat scat hall day cur today (.ok md)).meals.isEmpty then
            (if is_hall_open_now cat hall day cur then "open_no_menu" else "closed")
          else "open")) := by
  constructor
  · intro cat scat hall day cur today e
    refine ⟨rfl, rfl, ?_⟩
    cases e with
    | httpError msg =>
      by_cases h : str_contains msg "503" <;> simp [failure_status, h]
    | requestException msg => simp [failure_status]
    | otherException msg => simp [failure_status]
  · intro cat scat hall day cur today md
    cases md with
    | none => simp [scrape_dynamic_hall]
    | some md => simp [scrape_dynamic_hall]

/-- C4 counterexample: on a Tuesday the hall has no active schedule variant
(`get_meal_times_for_hall` is `None`), yet the Lunch fragment is NOT
dropped: the guard `meal_times and meal_type not in meal_times` is skipped
when `meal_times` is falsy, so the fragment reaches the output. -/
theorem c4_counterexample :
    get_meal_times_for_hall c4_catalog "Demo Hall" "tuesday" = none
    ∧ (scrape_dynamic_hall c4_catalog [] "Demo Hall" "tuesday" 720 0
        (.ok (some [⟨[c4_fragment]⟩]))).meals =
      [{ meal_type := "Lunch", time := none
       , stations := [{ station := "Grill"
                      , items := [⟨"Pasta Primavera", none, [], []⟩] }] }]
    ∧ (scrape_dynamic_hall c4_catalog [] "Demo Hall" "tuesday" 720 0
        (.ok (some [⟨[c4_fragment]⟩]))).status = "open" := by
  refine ⟨rfl, rfl, rfl⟩

/-- C4 (amended): a fragment with an unmapped meal-type code is dropped
silently; when the venue has an active, non-empty schedule for today, a
fragment whose mapped meal type is not among the declared names is dropped;
but when no schedule variant is active (`meal_times` falsy) the declared-name
check is skipped and the fragment is kept, as the concrete run shows. -/
theorem c4_meal_type_filter_amended :
    (∀ mt today mbt dr, mapped_meal_type dr = none →
        process_date_range mt today mbt dr = mbt)
    ∧ (∀ mt today mbt dr m, mapped_meal_type dr = some m →
        meal_type_guard_blocks mt m = true →
        process_date_range mt today mbt dr = mbt)
    ∧ (∀ l m, l.isEmpty = false → (l.map Prod.fst).contains m = false →
        meal_type_guard_blocks (some l) m = true)
    ∧ (∀ m, meal_type_guard_blocks none m = false)
    ∧ (scrape_dynamic_hall c4_catalog [] "Demo Hall" "tuesday" 720 0
        (.ok (some [⟨[c4_fragment]⟩]))).meals ≠ [] := by
  refine ⟨?_, ?_, ?_, fun m => rfl, by decide⟩
  · intro mt today mbt dr h
    unfold process_date_range
    split
    · rfl
    · rw [h]
  · intro mt today mbt dr m h h2
    unfold process_date_range
    split
    · rfl
    · rw [h]
      simp [h2]
  · intro l m h1 h2
    simp only [meal_type_guard_blocks, h1, h2]
    rfl

/-- Witness for C4 (amended): a fragment with the unmapped code "99" is
dropped, a Breakfast fragment at a Lunch-only hall is dropped, and the
declared-name guard fires for Breakfast against a Lunch-only schedule. -/
theorem c4_meal_type_filter_amended_witness :
    process_date_range (some [("Lunch", ⟨(11, 0), (14, 30)⟩)]) 0 []
      { date_from := .absent, date_to := .absent, menu_type := ["99"], stations := [] } = []
    ∧ process_date_range (some [("Lunch", ⟨(11, 0), (14, 30)⟩)]) 0 []
      { date_from := .absent, date_to := .absent, menu_type := ["6"], stations := [] } = []
    ∧ meal_type_guard_blocks (some [("Lunch", ⟨(11, 0), (14, 30)⟩)]) "Breakfast" = true :=
  ⟨c4_meal_type_filter_amended.1 _ 0 [] _ rfl,
   c4_meal_type_filter_amended.2.1 _ 0 [] _ "Breakfast" rfl (by decide),
   c4_meal_type_filter_amended.2.2.1 [("Lunch", ⟨(11, 0), (14, 30)⟩)] "Breakfast"
     rfl (by decide)⟩

/-- C5: a hall absent from the catalog has no meal times; and whenever the
meal-time resolution comes back empty the hall is resolved as not open with
no current meal, and a scrape with no usable menu data (or no fragments)
yields the ordinary not-open status `closed` rather than a failure. -/
theorem c5_missing_schedule :
    ∀ cat scat hall day cur today,
      (dict_lookup cat hall = none → get_meal_times_for_hall cat hall day = none)
      ∧ (get_meal_times_for_hall cat hall day = none →
          is_hall_open_now cat hall day cur = false
          ∧ get_current_meal_for_hall cat hall day cur = none
          ∧ (scrape_dynamic_hall cat scat hall day cur today (.ok none)).status = "closed"
          ∧ (scrape_dynamic_hall cat scat hall day cur today
              (.ok (some []))).status = "closed") := by
  intro cat scat hall day cur today
  constructor
  · intro h
    simp [get_meal_times_for_hall, h]
  · intro h
    have hopen : is_hall_open_now cat hall day cur = false := by
      simp [is_hall_open_now, h]
    refine ⟨hopen, ?_, ?_, ?_⟩
    · simp [get_current_meal_for_hall, h]
    · simp [scrape_dynamic_hall, hopen]
    · simp [scrape_dynamic_hall, hopen, collect_meals_by_type, normalize_state,
        assemble_meals, assemble_one, meal_order, dict_lookup]

/-- Witness for C5 at the empty catalog. -/
theorem c5_missing_schedule_witness :
    is_hall_open_now [] "Absent Hall" "monday" 600 = false
    ∧ get_current_meal_for_hall [] "Absent Hall" "monday" 600 = none
    ∧ (scrape_dynamic_hall [] [] "Absent Hall" "monday" 600 0 (.ok none)).status = "closed"
    ∧ (scrape_dynamic_hall [] [] "Absent Hall" "monday" 600 0
        (.ok (some []))).status = "closed" :=
  (c5_missing_schedule [] [] "Absent Hall" "monday" 600 0).2 rfl

/-- C8: a static-source venue emits exactly one "All Day" meal holding its
fixed catalog verbatim when open and no meals when closed; and JJ's Place
(window 12:00-10:00, crossing midnight) evaluated at 23:00 is `open` with
the full fixed catalog as the single "All Day" meal. -/
theorem c8_static_hall :
    (∀ scat hall day cur cfg, dict_lookup scat hall = some cfg →
        (is_static_hall_open scat hall day cur = true →
          (scrape_static_hall scat hall day cur).meals =
            [{ meal_type := "All Day", time := some cfg.operating_hours
             , stations := [{ station := "Menu", items := cfg.menu_items }] }]
          ∧ (scrape_static_hall scat hall day cur).status = "open")
        ∧ (is_static_hall_open scat hall day cur = false →
          (scrape_static_hall scat hall day cur).meals = []
          ∧ (scrape_static_hall scat hall day cur).status = "closed"))
    ∧ (scrape_static_hall STATIC_MENU_LOCATIONS "JJ\x27s Place" "monday" (23 * 60)).status
        = "open"
    ∧ (scrape_static_hall STATIC_MENU_LOCATIONS "JJ\x27s Place" "monday" (23 * 60)).meals =
        [{ meal_type := "All Day", time := some jjs_place_config.operating_hours
         , stations := [{ station := "Menu", items := jjs_place_config.menu_items }] }] := by
  refine ⟨?_, rfl, rfl⟩
  intro scat hall day cur cfg h
  constructor <;> intro h2 <;> simp [scrape_static_hall, h, h2]

/-- Witness for C8: JJ's Place at 11:00 on a Monday is in the gap between
10:00 and noon, hence closed with no meals. -/
theorem c8_static_hall_witness :
    (scrape_static_hall STATIC_MENU_LOCATIONS "JJ\x27s Place" "monday" 660).meals = []
    ∧ (scrape_static_hall STATIC_MENU_LOCATIONS "JJ\x27s Place" "monday" 660).status
        = "closed" :=
  (c8_static_hall.1 STATIC_MENU_LOCATIONS "JJ\x27s Place" "monday" 660
    jjs_place_config rfl).2 (by decide)

/-- Unfolding of the merge over an empty incoming list. -/
theorem merge_items_nil (ex : List Item) : merge_items ex [] = ex := rfl

/-- One step of the item merge. -/
theorem merge_items_cons (ex : List Item) (it : Item) (rest : List Item) :
    merge_items ex (it :: rest) =
      merge_items (if (ex.map Item.name).contains it.name then ex else ex ++ [it]) rest := rfl

/-- Names already present survive the merge. -/
theorem names_subset_merge_items (new : List Item) : ∀ ex s, s ∈ item_names ex →
    s ∈ item_names (merge_items ex new) := by
  induction new with
  | nil => intro ex s h; exact h
  | cons it rest ih =>
    intro ex s h
    rw [merge_items_cons]
    split
    · exact ih ex s h
    · refine ih _ s ?_
      simp only [item_names, List.map_append] at h ⊢
      exact List.mem_append_left _ h

/-- Every incoming item's name is present after the merge. -/
theorem mem_names_merge_items (new : List Item) : ∀ ex it, it ∈ new →
    it.name ∈ item_names (merge_items ex new) := by
  induction new with
  | nil => intro ex it h; cases h
  | cons a rest ih =>
    intro ex it h
    rw [merge_items_cons]
    rcases List.mem_cons.1 h with heq | h
    · subst heq
      split
      · next hc =>
        refine names_subset_merge_items rest ex it.name ?_
        simpa [item_names] using hc
      · refine names_subset_merge_items rest (ex ++ [it]) it.name ?_
        simp [item_names]
    · split <;> exact ih _ it h

/-- Merging items whose names are all already present is a no-op. -/
theorem merge_items_eq_of_covered (new : List Item) : ∀ ex,
    (∀ it ∈ new, it.name ∈ item_names ex) → merge_items ex new = ex := by
  induction new with
  | nil => intro ex _; rfl
  | cons a rest ih =>
    intro ex h
    rw [merge_items_cons]
    have hmem : a.name ∈ ex.map Item.name := h a (List.mem_cons_self a rest)
    have hc : (ex.map Item.name).contains a.name = true := by simpa using hmem
    rw [if_pos hc]
    exact ih ex (fun it hit => h it (List.mem_cons_of_mem _ hit))

/-- The merge keeps the existing items as an unchanged prefix and appends
only incoming items with fresh names. -/
theorem merge_items_prefix (new : List Item) : ∀ ex, ∃ tail,
    merge_items ex new = ex ++ tail ∧ ∀ it ∈ tail, it ∈ new ∧ it.name ∉ item_names ex := by
  induction new with
  | nil => intro ex; exact ⟨[], by simp [merge_items_nil], by simp⟩
  | cons a rest ih =>
    intro ex
    rw [merge_items_cons]
    split
    · obtain ⟨tail, heq, hmem⟩ := ih ex
      exact ⟨tail, heq, fun it hit =>
        ⟨List.mem_cons_of_mem _ (hmem it hit).1, (hmem it hit).2⟩⟩
    · next hc =>
      obtain ⟨tail, heq, hmem⟩ := ih (ex ++ [a])
      have hna : a.name ∉ ex.map Item.name := by simpa using hc
      refine ⟨a :: tail, by simpa using heq, ?_⟩
      intro it hit
      rcases List.mem_cons.1 hit with rfl | hit
      · exact ⟨List.mem_cons_self _ _, hna⟩
      · refine ⟨List.mem_cons_of_mem _ (hmem it hit).1, ?_⟩
        intro hmm
        exact (hmem it hit).2 (by
          simp only [item_names, List.map_append]
          exact List.mem_append_left _ hmm)

/-- The merge preserves pairwise-distinct item names. -/
theorem merge_items_names_nodup (new : List Item) : ∀ ex,
    (item_names ex).Nodup → (item_names (merge_items ex new)).Nodup := by
  induction new with
  | nil => intro ex h; exact h
  | cons a rest ih =>
    intro ex h
    rw [merge_items_cons]
    split
    · exact ih ex h
    · next hc =>
      refine ih _ ?_
      have hna : a.name ∉ ex.map Item.name := by simpa using hc
      simp only [item_names, List.map_append, List.map_cons, List.map_nil]
      refine List.Nodup.append h (List.nodup_singleton _) ?_
      intro x hx hx'
      rw [List.mem_singleton] at hx'
      exact hna (hx' ▸ hx)

/-- Merging never empties the station list. -/
theorem merge_station_ne_nil (l : List Station) (ns : Station) :
    merge_station l ns ≠ [] := by
  cases l with
  | nil => simp [merge_station]
  | cons st rest =>
    unfold merge_station
    split <;> simp

/-- Scanning an empty station list finds nothing. -/
theorem first_station_nil (s : String) : first_station [] s = none := rfl

/-- Scan hit on the head station. -/
theorem first_station_cons_pos (st : Station) (rest : List Station) (s : String)
    (h : st.station = s) : first_station (st :: rest) s = some st :=
  List.find?_cons_of_pos _ (by simp [h])

/-- Scan past a non-matching head station. -/
theorem first_station_cons_neg (st : Station) (rest : List Station) (s : String)
    (h : st.station ≠ s) : first_station (st :: rest) s = first_station rest s :=
  List.find?_cons_of_neg _ (by simp [h])

/-- One step of the station merge. -/
theorem merge_station_cons (st : Station) (rest : List Station) (ns : Station) :
    merge_station (st :: rest) ns =
      if st.station == ns.station then
        { st with items := merge_items st.items ns.items } :: rest
      else st :: merge_station rest ns := rfl

/-- The names of a cons station list. -/
theorem station_keys_cons (st : Station) (rest : List Station) :
    station_keys (st :: rest) = st.station :: station_keys rest := rfl

/-- The station names after a merge: unchanged when the incoming name was
already present, appended at the end otherwise. -/
theorem merge_station_keys (ns : Station) : ∀ l : List Station,
    station_keys (merge_station l ns) =
      if ns.station ∈ station_keys l then station_keys l
      else station_keys l ++ [ns.station] := by
  intro l
  induction l with
  | nil => simp [merge_station, station_keys]
  | cons st rest ih =>
    rw [merge_station_cons]
    rcases eq_or_ne st.station ns.station with he | he
    · rw [if_pos (by simp [he])]
      have hmem : ns.station ∈ station_keys (st :: rest) := by
        simp [station_keys, he.symm]
      rw [if_pos hmem]
      rfl
    · rw [if_neg (by simp [he]), station_keys_cons, station_keys_cons, ih]
      by_cases hmem : ns.station ∈ station_keys rest
      · rw [if_pos hmem, if_pos (List.mem_cons_of_mem _ hmem)]
      · have hmem2 : ns.station ∉ st.station :: station_keys rest := by
          intro hx
          rcases List.mem_cons.1 hx with hx | hx
          · exact he hx.symm
          · exact hmem hx
        rw [if_neg hmem, if_neg hmem2]
        rfl

/-- The merge preserves pairwise-distinct station names. -/
theorem merge_station_keys_nodup (l : List Station) (ns : Station)
    (h : (station_keys l).Nodup) : (station_keys (merge_station l ns)).Nodup := by
  rw [merge_station_keys]
  split
  · exact h
  · next hmem =>
    refine List.Nodup.append h (List.nodup_singleton _) ?_
    intro x hx hx'
    rw [List.mem_singleton] at hx'
    exact hmem (hx' ▸ hx)

/-- A covered station merges to nothing: the scan finds the first station
of that name, all incoming names are already there, and the in-place
update leaves the items untouched. -/
theorem merge_station_of_covered (ns : Station) : ∀ l : List Station,
    station_covered l ns → merge_station l ns = l := by
  intro l
  induction l with
  | nil =>
    rintro ⟨st, hfind, -⟩
    rw [first_station_nil] at hfind
    cases hfind
  | cons s0 rest ih =>
    rintro ⟨st, hfind, hsub⟩
    rw [merge_station_cons]
    rcases eq_or_ne s0.station ns.station with he | he
    · rw [first_station_cons_pos s0 rest ns.station he] at hfind
      cases hfind
      rw [if_pos (by simp [he])]
      rw [merge_items_eq_of_covered _ _ hsub]
    · rw [first_station_cons_neg s0 rest ns.station he] at hfind
      rw [if_neg (by simp [he])]
      rw [ih ⟨st, hfind, hsub⟩]

/-- After merging a station, that station is covered. -/
theorem covered_merge_self (ns : Station) : ∀ l : List Station,
    station_covered (merge_station l ns) ns := by
  intro l
  induction l with
  | nil =>
    refine ⟨ns, ?_, fun it hit => List.mem_map_of_mem _ hit⟩
    rw [show merge_station [] ns = [ns] from rfl]
    exact first_station_cons_pos ns [] ns.station rfl
  | cons s0 rest ih =>
    rw [merge_station_cons]
    rcases eq_or_ne s0.station ns.station with he | he
    · rw [if_pos (by simp [he])]
      refine ⟨_, first_station_cons_pos _ _ _ he, ?_⟩
      intro it hit
      exact mem_names_merge_items ns.items s0.items it hit
    · rw [if_neg (by simp [he])]
      obtain ⟨st, hfind, hsub⟩ := ih
      exact ⟨st, (first_station_cons_neg s0 _ ns.station he).trans hfind, hsub⟩

/-- Coverage of one station is stable under merging any other station. -/
theorem covered_mono (ns ns' : Station) : ∀ l : List Station,
    station_covered l ns → station_covered (merge_station l ns') ns := by
  intro l
  induction l with
  | nil =>
    rintro ⟨st, hfind, -⟩
    rw [first_station_nil] at hfind
    cases hfind
  | cons s0 rest ih =>
    rintro ⟨st, hfind, hsub⟩
    rw [merge_station_cons]
    rcases eq_or_ne s0.station ns'.station with he' | he'
    · rw [if_pos (by simp [he'])]
      rcases eq_or_ne s0.station ns.station with he | he
      · rw [first_station_cons_pos s0 rest ns.station he] at hfind
        cases hfind
        refine ⟨_, first_station_cons_pos _ _ _ he, ?_⟩
        intro it hit
        exact names_subset_merge_items ns'.items s0.items it.name (hsub it hit)
      · rw [first_station_cons_neg s0 rest ns.station he] at hfind
        exact ⟨st,
          (first_station_cons_neg ⟨s0.station, merge_items s0.items ns'.items⟩ rest
            ns.station he).trans hfind, hsub⟩
    · rw [if_neg (by simp [he'])]
      rcases eq_or_ne s0.station ns.station with he | he
      · rw [first_station_cons_pos s0 rest ns.station he] at hfind
        cases hfind
        exact ⟨s0, first_station_cons_pos _ _ _ he, hsub⟩
      · rw [first_station_cons_neg s0 rest ns.station he] at hfind
        obtain ⟨st2, hf2, hs2⟩ := ih ⟨st, hfind, hsub⟩
        exact ⟨st2, (first_station_cons_neg s0 _ ns.station he).trans hf2, hs2⟩

/-- Unfolding of the fold over a fragment's stations. -/
theorem merge_stations_cons (l : List Station) (s : Station) (rest : List Station) :
    merge_stations l (s :: rest) = merge_stations (merge_station l s) rest := rfl

/-- Coverage is stable under merging a whole fragment. -/
theorem covered_merge_stations (sd : List Station) : ∀ l ns,
    station_covered l ns → station_covered (merge_stations l sd) ns := by
  induction sd with
  | nil => intro l ns h; exact h
  | cons s rest ih =>
    intro l ns h
    rw [merge_stations_cons]
    exact ih _ _ (covered_mono ns s l h)

/-- After merging a fragment, each of its stations is covered. -/
theorem all_covered_merge_stations (sd : List Station) : ∀ l ns, ns ∈ sd →
    station_covered (merge_stations l sd) ns := by
  induction sd with
  | nil => intro l ns h; cases h
  | cons s rest ih =>
    intro l ns h
    rw [merge_stations_cons]
    rcases List.mem_cons.1 h with heq | h
    · subst heq
      exact covered_merge_stations rest _ _ (covered_merge_self ns l)
    · exact ih _ _ h

/-- Merging a fragment whose stations are all covered is a no-op. -/
theorem merge_stations_of_all_covered (sd : List Station) : ∀ l,
    (∀ ns ∈ sd, station_covered l ns) → merge_stations l sd = l := by
  induction sd with
  | nil => intro l _; rfl
  | cons s rest ih =>
    intro l h
    rw [merge_stations_cons, merge_station_of_covered s l (h s (List.mem_cons_self _ _))]
    exact ih l (fun ns hns => h ns (List.mem_cons_of_mem _ hns))

/-- Merging the same fragment twice equals merging it once. -/
theorem merge_stations_idem (l : List Station) (sd : List Station) :
    merge_stations (merge_stations l sd) sd = merge_stations l sd :=
  merge_stations_of_all_covered sd _ (fun ns hns => all_covered_merge_stations sd l ns hns)

/-- One step of the dictionary lookup. -/
theorem dict_lookup_cons {α : Type} (k : String) (v : α) (rest : List (String × α))
    (key : String) :
    dict_lookup ((k, v) :: rest) key = if k == key then some v else dict_lookup rest key := rfl

/-- Lookup distributes over appending. -/
theorem dict_lookup_append {α : Type} (l l' : List (String × α)) (key : String) :
    dict_lookup (l ++ l') key =
      match dict_lookup l key with
      | some v => some v
      | none => dict_lookup l' key := by
  induction l with
  | nil => rfl
  | cons p rest ih =>
    obtain ⟨k, v⟩ := p
    rw [List.cons_append, dict_lookup_cons, dict_lookup_cons]
    by_cases he : k = key
    · rw [if_pos (by simp [he]), if_pos (by simp [he])]
    · rw [if_neg (by simp [he]), if_neg (by simp [he])]
      exact ih

/-- A successful lookup names an entry of the list. -/
theorem dict_lookup_mem {α : Type} (key : String) (v : α) : ∀ l : List (String × α),
    dict_lookup l key = some v → (key, v) ∈ l := by
  intro l
  induction l with
  | nil => intro h; cases h
  | cons p rest ih =>
    obtain ⟨k, w⟩ := p
    rw [dict_lookup_cons]
    by_cases he : k = key
    · rw [if_pos (by simp [he])]
      intro h
      cases h
      exact he ▸ List.mem_cons_self _ _
    · rw [if_neg (by simp [he])]
      intro h
      exact List.mem_cons_of_mem _ (ih h)

/-- A key among the declared keys always resolves. -/
theorem dict_lookup_isSome_of_mem_keys {α : Type} (key : String) : ∀ l : List (String × α),
    key ∈ l.map Prod.fst → (dict_lookup l key).isSome := by
  intro l
  induction l with
  | nil => intro h; cases h
  | cons p rest ih =>
    obtain ⟨k, w⟩ := p
    intro h
    rw [dict_lookup_cons]
    by_cases he : k = key
    · rw [if_pos (by simp [he])]
      rfl
    · rw [if_neg (by simp [he])]
      refine ih ?_
      rcases List.mem_cons.1 h with hx | hx
      · exact absurd hx.symm he
      · exact hx

/-- One step of the association update. -/
theorem update_assoc_cons {α : Type} (k : String) (v : α) (rest : List (String × α))
    (key : String) (f : α → α) :
    update_assoc ((k, v) :: rest) key f =
      if k == key then (k, f v) :: rest else (k, v) :: update_assoc rest key f := rfl

/-- The updated key reads back through the update function. -/
theorem dict_lookup_update_assoc_self {α : Type} (f : α → α) (key : String) :
    ∀ l : List (String × α),
      dict_lookup (update_assoc l key f) key = (dict_lookup l key).map f := by
  intro l
  induction l with
  | nil => rfl
  | cons p rest ih =>
    obtain ⟨k, v⟩ := p
    rw [update_assoc_cons]
    by_cases he : k = key
    · rw [if_pos (by simp [he]), dict_lookup_cons, dict_lookup_cons,
        if_pos (by simp [he]), if_pos (by simp [he])]
      rfl
    · rw [if_neg (by simp [he]), dict_lookup_cons, dict_lookup_cons,
        if_neg (by simp [he]), if_neg (by simp [he])]
      exact ih

/-- Other keys are unaffected by the update. -/
theorem dict_lookup_update_assoc_ne {α : Type} (f : α → α) (key m : String) (hne : key ≠ m) :
    ∀ l : List (String × α), dict_lookup (update_assoc l key f) m = dict_lookup l m := by
  intro l
  induction l with
  | nil => rfl
  | cons p rest ih =>
    obtain ⟨k, v⟩ := p
    rw [update_assoc_cons]
    by_cases he : k = key
    · rw [if_pos (by simp [he]), dict_lookup_cons, dict_lookup_cons]
      have hkm : ¬ (k == m) = true := by simp [he, hne]
      rw [if_neg hkm, if_neg hkm]
    · rw [if_neg (by simp [he]), dict_lookup_cons, dict_lookup_cons]
      by_cases hkm : k = m
      · rw [if_pos (by simp [hkm]), if_pos (by simp [hkm])]
      · rw [if_neg (by simp [hkm]), if_neg (by simp [hkm])]
        exact ih

/-- Two updates at one key compose. -/
theorem update_assoc_twice {α : Type} (f g : α → α) (key : String) :
    ∀ l : List (String × α),
      update_assoc (update_assoc l key f) key g = update_assoc l key (fun v => g (f v)) := by
  intro l
  induction l with
  | nil => rfl
  | cons p rest ih =>
    obtain ⟨k, v⟩ := p
    rw [update_assoc_cons]
    by_cases he : k = key
    · rw [if_pos (by simp [he]), update_assoc_cons, if_pos (by simp [he]),
        update_assoc_cons, if_pos (by simp [he])]
    · rw [if_neg (by simp [he]), update_assoc_cons, if_neg (by simp [he]),
        update_assoc_cons, if_neg (by simp [he]), ih]

/-- Pointwise-equal update functions update identically. -/
theorem update_assoc_congr {α : Type} (f g : α → α) (key : String)
    (h : ∀ v, f v = g v) :
    ∀ l : List (String × α), update_assoc l key f = update_assoc l key g := by
  intro l
  induction l with
  | nil => rfl
  | cons p rest ih =>
    obtain ⟨k, v⟩ := p
    rw [update_assoc_cons, update_assoc_cons]
    by_cases he : k = key
    · rw [if_pos (by simp [he]), if_pos (by simp [he]), h v]
    · rw [if_neg (by simp [he]), if_neg (by simp [he]), ih]

/-- Unfolding of the fragment recording step on a non-empty station list. -/
theorem add_fragment_stations_eq (mbt : List (String × List Station)) (m : String)
    (s : Station) (tl : List Station) :
    add_fragment_stations mbt m (s :: tl) =
      update_assoc (if (dict_lookup mbt m).isSome then mbt else mbt ++ [(m, [])]) m
        (fun stations => merge_stations stations (s :: tl)) := rfl

/-- Reading back the meal type a fragment was just recorded under. -/
theorem dict_lookup_add_fragment_self (mbt : List (String × List Station)) (m : String)
    (s : Station) (tl : List Station) :
    dict_lookup (add_fragment_stations mbt m (s :: tl)) m =
      some (merge_stations ((dict_lookup mbt m).getD []) (s :: tl)) := by
  rw [add_fragment_stations_eq, dict_lookup_update_assoc_self]
  cases hl : dict_lookup mbt m with
  | some v =>
    rw [show (if (some v : Option (List Station)).isSome then mbt else mbt ++ [(m, [])]) = mbt
      from rfl, hl]
    rfl
  | none =>
    rw [show (if (none : Option (List Station)).isSome then mbt else mbt ++ [(m, [])]) =
        mbt ++ [(m, [])] from rfl,
      dict_lookup_append, hl]
    rw [show dict_lookup [(m, [])] m = some [] from by
      rw [dict_lookup_cons, if_pos (by simp)]]
    rfl

/-- Recording the same fragment twice equals recording it once. -/
theorem add_fragment_stations_idem (mbt : List (String × List Station)) (m : String)
    (sd : List Station) :
    add_fragment_stations (add_fragment_stations mbt m sd) m sd =
      add_fragment_stations mbt m sd := by
  cases sd with
  | nil => rfl
  | cons s tl =>
    have hsome : (dict_lookup (add_fragment_stations mbt m (s :: tl)) m).isSome := by
      rw [dict_lookup_add_fragment_self]
      rfl
    rw [add_fragment_stations_eq (add_fragment_stations mbt m (s :: tl)) m s tl,
      if_pos hsome, add_fragment_stations_eq mbt m s tl, update_assoc_twice]
    exact update_assoc_congr _ _ _ (fun v => merge_stations_idem v (s :: tl)) _

/-- A fragment failing the date filter changes nothing. -/
theorem process_skip_date (mt : Option (List (String × Window))) (today : Nat)
    (mbt : List (String × List Station)) (dr : DateRangeFields)
    (h : is_today_in_date_range today dr = false) :
    process_date_range mt today mbt dr = mbt := by
  unfold process_date_range
  rw [h]
  rfl

/-- A fragment with an unmapped meal-type code changes nothing. -/
theorem process_skip_unmapped (mt : Option (List (String × Window))) (today : Nat)
    (mbt : List (String × List Station)) (dr : DateRangeFields)
    (h : mapped_meal_type dr = none) :
    process_date_range mt today mbt dr = mbt := by
  unfold process_date_range
  rw [h]
  split <;> rfl

/-- A fragment stopped by the declared-name guard changes nothing. -/
theorem process_skip_blocked (mt : Option (List (String × Window))) (today : Nat)
    (mbt : List (String × List Station)) (dr : DateRangeFields) (m : String)
    (hm : mapped_meal_type dr = some m) (hb : meal_type_guard_blocks mt m = true) :
    process_date_range mt today mbt dr = mbt := by
  unfold process_date_range
  rw [hm]
  split
  · rfl
  · show (if meal_type_guard_blocks mt m = true then mbt
      else add_fragment_stations mbt m (build_stations dr.stations)) = mbt
    rw [if_pos hb]

/-- A surviving fragment is recorded under its mapped meal type. -/
theorem process_apply (mt : Option (List (String × Window))) (today : Nat)
    (mbt : List (String × List Station)) (dr : DateRangeFields) (m : String)
    (hd : is_today_in_date_range today dr = true)
    (hm : mapped_meal_type dr = some m)
    (hb : meal_type_guard_blocks mt m = false) :
    process_date_range mt today mbt dr =
      add_fragment_stations mbt m (build_stations dr.stations) := by
  unfold process_date_range
  rw [hd, hm]
  simp [hb]

/-- Processing the same fragment twice in a row equals processing it once. -/
theorem process_date_range_idem (mt : Option (List (String × Window))) (today : Nat)
    (s : List (String × List Station)) (f : DateRangeFields) :
    process_date_range mt today (process_date_range mt today s f) f =
      process_date_range mt today s f := by
  by_cases hd : is_today_in_date_range today f = true
  · cases hm : mapped_meal_type f with
    | none => rw [process_skip_unmapped _ _ _ _ hm, process_skip_unmapped _ _ _ _ hm]
    | some m =>
      by_cases hb : meal_type_guard_blocks mt m = true
      · rw [process_skip_blocked _ _ _ _ _ hm hb, process_skip_blocked _ _ _ _ _ hm hb]
      · have hb' : meal_type_guard_blocks mt m = false := by
          cases hx : meal_type_guard_blocks mt m
          · rfl
          · exact absurd hx hb
        rw [process_apply _ _ s f m hd hm hb', process_apply _ _ _ f m hd hm hb']
        exact add_fragment_stations_idem _ _ _
  · have hd' : is_today_in_date_range today f = false := by
      cases hx : is_today_in_date_range today f
      · rfl
      · exact absurd hx hd
    rw [process_skip_date _ _ _ _ hd', process_skip_date _ _ _ _ hd']

/-- Folding the per-fragment-duplicated list equals folding the original. -/
theorem foldl_process_duplicate (mt : Option (List (String × Window))) (today : Nat) :
    ∀ (frs : List DateRangeFields) (s : List (String × List Station)),
      List.foldl (process_date_range mt today) s (duplicate_fragments frs) =
        List.foldl (process_date_range mt today) s frs := by
  intro frs
  induction frs with
  | nil => intro s; rfl
  | cons f rest ih =>
    intro s
    show List.foldl (process_date_range mt today) s (f :: f :: duplicate_fragments rest) = _
    rw [List.foldl_cons, List.foldl_cons, List.foldl_cons, process_date_range_idem]
    exact ih _

/-- C7: normalizing the fragment list with each fragment duplicated yields
the same meals-by-type state, hence the same assembled canonical meal,
station and item result, as normalizing the list once. -/
theorem c7_merge_idempotence :
    ∀ meal_times today frs,
      normalize_state meal_times today (duplicate_fragments frs) =
        normalize_state meal_times today frs
      ∧ assemble_meals meal_times (normalize_state meal_times today (duplicate_fragments frs)) =
        assemble_meals meal_times (normalize_state meal_times today frs) := by
  intro mt today frs
  have h : normalize_state mt today (duplicate_fragments frs) = normalize_state mt today frs :=
    foldl_process_duplicate mt today frs []
  exact ⟨h, by rw [h]⟩

/-- A non-empty list is not `isEmpty`. -/
theorem isEmpty_false_of_ne_nil {α : Type} (l : List α) (h : l ≠ []) :
    l.isEmpty = false := by
  cases l with
  | nil => exact absurd rfl h
  | cons a t => rfl

/-- Merging one station preserves per-station item-name distinctness when
the incoming station's item names are distinct. -/
theorem merge_station_items_nodup (ns : Station) (hns : (item_names ns.items).Nodup) :
    ∀ l, stations_items_nodup l → stations_items_nodup (merge_station l ns) := by
  intro l
  induction l with
  | nil =>
    intro _
    intro st hst
    rw [List.mem_singleton.1 hst]
    exact hns
  | cons s0 rest ih =>
    intro h
    rw [merge_station_cons]
    by_cases he : s0.station = ns.station
    · rw [if_pos (by simp [he])]
      intro st hst
      rcases List.mem_cons.1 hst with heq | hst
      · subst heq
        exact merge_items_names_nodup ns.items s0.items (h s0 (List.mem_cons_self _ _))
      · exact h st (List.mem_cons_of_mem _ hst)
    · rw [if_neg (by simp [he])]
      intro st hst
      rcases List.mem_cons.1 hst with heq | hst
      · subst heq
        exact h st (List.mem_cons_self _ _)
      · exact ih (fun s hs => h s (List.mem_cons_of_mem _ hs)) st hst

/-- Merging a fragment's stations preserves per-station item-name
distinctness when each incoming station's item names are distinct. -/
theorem merge_stations_items_nodup (sd : List Station)
    (hsd : ∀ ns ∈ sd, (item_names ns.items).Nodup) :
    ∀ l, stations_items_nodup l → stations_items_nodup (merge_stations l sd) := by
  induction sd with
  | nil => intro l h; exact h
  | cons s tl ih =>
    intro l h
    rw [merge_stations_cons]
    exact ih (fun ns hns => hsd ns (List.mem_cons_of_mem _ hns)) _
      (merge_station_items_nodup s (hsd s (List.mem_cons_self _ _)) l h)

/-- The association update preserves a per-value property that the update
function preserves. -/
theorem mbt_items_nodup_update (f : List Station → List Station)
    (hf : ∀ v, stations_items_nodup v → stations_items_nodup (f v)) (key : String) :
    ∀ mbt, mbt_items_nodup mbt → mbt_items_nodup (update_assoc mbt key f) := by
  intro mbt
  induction mbt with
  | nil => intro h; exact h
  | cons p rest ih =>
    obtain ⟨k, v⟩ := p
    intro h
    rw [update_assoc_cons]
    by_cases he : k = key
    · rw [if_pos (by simp [he])]
      intro q hq
      rcases List.mem_cons.1 hq with heq | hq
      · subst heq
        exact hf v (h (k, v) (List.mem_cons_self _ _))
      · exact h q (List.mem_cons_of_mem _ hq)
    · rw [if_neg (by simp [he])]
      intro q hq
      rcases List.mem_cons.1 hq with heq | hq
      · subst heq
        exact h (k, v) (List.mem_cons_self _ _)
      · exact ih (fun r hr => h r (List.mem_cons_of_mem _ hr)) q hq

/-- Inserting a fresh empty meal group preserves the item-name invariant. -/
theorem mbt_items_nodup_append_empty (mbt : List (String × List Station)) (m : String)
    (h : mbt_items_nodup mbt) : mbt_items_nodup (mbt ++ [(m, [])]) := by
  intro p hp
  rcases List.mem_append.1 hp with hp | hp
  · exact h p hp
  · rw [List.mem_singleton.1 hp]
    intro st hst
    cases hst

/-- Recording a fragment preserves the item-name invariant when each of its
stations has distinct item names. -/
theorem mbt_items_nodup_add (mbt : List (String × List Station)) (m : String)
    (sd : List Station) (hsd : ∀ ns ∈ sd, (item_names ns.items).Nodup)
    (h : mbt_items_nodup mbt) : mbt_items_nodup (add_fragment_stations mbt m sd) := by
  cases sd with
  | nil => exact h
  | cons s tl =>
    rw [add_fragment_stations_eq]
    refine mbt_items_nodup_update _ (fun v hv => merge_stations_items_nodup _ hsd v hv) m _ ?_
    split
    · exact h
    · exact mbt_items_nodup_append_empty mbt m h

/-- Processing one fragment preserves the item-name invariant when the
fragment's built stations have distinct item names. -/
theorem mbt_items_nodup_process (mt : Option (List (String × Window))) (today : Nat)
    (dr : DateRangeFields)
    (hdr : ∀ st ∈ build_stations dr.stations, (item_names st.items).Nodup)
    (mbt : List (String × List Station)) (h : mbt_items_nodup mbt) :
    mbt_items_nodup (process_date_range mt today mbt dr) := by
  unfold process_date_range
  split
  · exact h
  · split
    · exact h
    · split
      · exact h
      · exact mbt_items_nodup_add _ _ _ hdr h

/-- Folding fragments preserves the item-name invariant. -/
theorem mbt_items_nodup_fold (mt : Option (List (String × Window))) (today : Nat) :
    ∀ (frs : List DateRangeFields),
      (∀ dr ∈ frs, ∀ st ∈ build_stations dr.stations, (item_names st.items).Nodup) →
      ∀ mbt, mbt_items_nodup mbt →
      mbt_items_nodup (List.foldl (process_date_range mt today) mbt frs) := by
  intro frs
  induction frs with
  | nil => intro _ mbt h; exact h
  | cons f rest ih =>
    intro hh mbt h
    rw [List.foldl_cons]
    exact ih (fun dr hdr => hh dr (List.mem_cons_of_mem _ hdr)) _
      (mbt_items_nodup_process mt today f (hh f (List.mem_cons_self _ _)) mbt h)

/-- Every assembled meal reads back from the accumulator: its stations are
the accumulator entry for its meal type, non-empty, its time label is the
schedule-derived one, and its type is one of the canonical three. -/
theorem mem_assemble (mt : Option (List (String × Window)))
    (mbt : List (String × List Station)) (meal : Meal)
    (h : meal ∈ assemble_meals mt mbt) :
    dict_lookup mbt meal.meal_type = some meal.stations
    ∧ meal.stations ≠ []
    ∧ meal.time = meal_time_label mt meal.meal_type
    ∧ meal.meal_type ∈ meal_order := by
  unfold assemble_meals at h
  rw [List.mem_filterMap] at h
  obtain ⟨a, ha, hfa⟩ := h
  unfold assemble_one at hfa
  cases hl : dict_lookup mbt a with
  | none => rw [hl] at hfa; cases hfa
  | some stations =>
    rw [hl] at hfa
    have hfa' : (if stations.isEmpty = true then none
        else some { meal_type := a, time := meal_time_label mt a
                  , stations := stations : Meal }) = some meal := hfa
    by_cases hse : stations.isEmpty = true
    · rw [if_pos hse] at hfa'; cases hfa'
    · rw [if_neg hse] at hfa'
      cases hfa'
      refine ⟨hl, ?_, rfl, ha⟩
      intro hnil
      have hnil' : stations = [] := hnil
      rw [hnil'] at hse
      exact hse rfl

/-- C6 counterexample: a single fragment whose one station lists "Pizza"
twice is copied verbatim into the output (the first contribution to a
station name is appended without internal deduplication), so the emitted
station has a repeated item name and the second occurrence's metadata
survives alongside the first. -/
theorem c6_counterexample :
    (scrape_dynamic_hall c4_catalog [] "Demo Hall" "monday" 720 0
      (.ok (some [⟨[c6_fragment]⟩]))).meals =
      [{ meal_type := "Lunch", time := some "11:00 AM - 2:30 PM"
       , stations := [{ station := "Grill"
                      , items := [⟨"Pizza", some "first", [], []⟩,
                                  ⟨"Pizza", some "second", [], []⟩] }] }]
    ∧ ¬ (item_names [(⟨"Pizza", some "first", [], []⟩ : Item),
                     ⟨"Pizza", some "second", [], []⟩]).Nodup :=
  ⟨rfl, by decide⟩

/-- C6 (amended): provided each contributing fragment's built stations have
pairwise-distinct item names, every station of every emitted meal has
pairwise-distinct item names; and whenever a fragment's station merges into
an already-present station, the existing items are kept unchanged as a
prefix (so the first occurrence's metadata wins) and only items with fresh
names are appended (later same-named duplicates are silently discarded). -/
theorem c6_station_dedup_amended :
    (∀ cat scat hall day cur today md,
      (∀ menu ∈ md, ∀ dr ∈ menu.date_range_fields,
        ∀ st ∈ build_stations dr.stations, (item_names st.items).Nodup) →
      ∀ meal ∈ (scrape_dynamic_hall cat scat hall day cur today (.ok (some md))).meals,
        ∀ st ∈ meal.stations, (item_names st.items).Nodup)
    ∧ (∀ ex new, ∃ tail, merge_items ex new = ex ++ tail ∧
        ∀ it ∈ tail, it ∈ new ∧ it.name ∉ item_names ex) := by
  constructor
  · intro cat scat hall day cur today md H meal hmeal st hst
    have H' : ∀ dr ∈ (md.map Menu.date_range_fields).flatten,
        ∀ st ∈ build_stations dr.stations, (item_names st.items).Nodup := by
      intro dr hdr
      rw [List.mem_flatten] at hdr
      obtain ⟨l, hl, hdrl⟩ := hdr
      rw [List.mem_map] at hl
      obtain ⟨menu, hmenu, rfl⟩ := hl
      exact H menu hmenu dr hdrl
    have hmbt : mbt_items_nodup
        (collect_meals_by_type (get_meal_times_for_hall cat hall day) today md) :=
      mbt_items_nodup_fold _ today _ H' [] (fun p hp => absurd hp (List.not_mem_nil p))
    have hmeal' : meal ∈ assemble_meals (get_meal_times_for_hall cat hall day)
        (collect_meals_by_type (get_meal_times_for_hall cat hall day) today md) := hmeal
    have hm := mem_assemble _ _ meal hmeal'
    exact hmbt (meal.meal_type, meal.stations) (dict_lookup_mem _ _ _ hm.1) st hst
  · intro ex new
    exact merge_items_prefix new ex

/-- Witness for C6 (amended) on a concrete duplicate-free fragment. -/
theorem c6_station_dedup_amended_witness :
    (item_names [(⟨"Pasta Primavera", none, [], []⟩ : Item)]).Nodup :=
  c6_station_dedup_amended.1 c4_catalog [] "Demo Hall" "monday" 720 0
    [⟨[c4_fragment]⟩] (by decide)
    { meal_type := "Lunch", time := some "11:00 AM - 2:30 PM"
    , stations := [⟨"Grill", [⟨"Pasta Primavera", none, [], []⟩]⟩] } (by decide)
    ⟨"Grill", [⟨"Pasta Primavera", none, [], []⟩]⟩ (by decide)

/-- Merging a fragment's stations preserves distinct station names. -/
theorem merge_stations_keys_nodup (sd : List Station) :
    ∀ l, (station_keys l).Nodup → (station_keys (merge_stations l sd)).Nodup := by
  induction sd with
  | nil => intro l h; exact h
  | cons s tl ih =>
    intro l h
    rw [merge_stations_cons]
    exact ih _ (merge_station_keys_nodup l s h)

/-- The association update preserves distinct station names per group. -/
theorem mbt_keys_nodup_update (f : List Station → List Station)
    (hf : ∀ v, (station_keys v).Nodup → (station_keys (f v)).Nodup) (key : String) :
    ∀ mbt, mbt_station_keys_nodup mbt → mbt_station_keys_nodup (update_assoc mbt key f) := by
  intro mbt
  induction mbt with
  | nil => intro h; exact h
  | cons p rest ih =>
    obtain ⟨k, v⟩ := p
    intro h
    rw [update_assoc_cons]
    by_cases he : k = key
    · rw [if_pos (by simp [he])]
      intro q hq
      rcases List.mem_cons.1 hq with heq | hq
      · subst heq
        exact hf v (h (k, v) (List.mem_cons_self _ _))
      · exact h q (List.mem_cons_of_mem _ hq)
    · rw [if_neg (by simp [he])]
      intro q hq
      rcases List.mem_cons.1 hq with heq | hq
      · subst heq
        exact h (k, v) (List.mem_cons_self _ _)
      · exact ih (fun r hr => h r (List.mem_cons_of_mem _ hr)) q hq

/-- Inserting a fresh empty meal group preserves distinct station names. -/
theorem mbt_keys_nodup_append_empty (mbt : List (String × List Station)) (m : String)
    (h : mbt_station_keys_nodup mbt) : mbt_station_keys_nodup (mbt ++ [(m, [])]) := by
  intro p hp
  rcases List.mem_append.1 hp with hp | hp
  · exact h p hp
  · rw [List.mem_singleton.1 hp]
    exact List.nodup_nil

/-- Recording a fragment preserves distinct station names per group. -/
theorem mbt_keys_nodup_add (mbt : List (String × List Station)) (m : String)
    (sd : List Station) (h : mbt_station_keys_nodup mbt) :
    mbt_station_keys_nodup (add_fragment_stations mbt m sd) := by
  cases sd with
  | nil => exact h
  | cons s tl =>
    rw [add_fragment_stations_eq]
    refine mbt_keys_nodup_update _ (fun v hv => merge_stations_keys_nodup _ v hv) m _ ?_
    split
    · exact h
    · exact mbt_keys_nodup_append_empty mbt m h

/-- Processing one fragment preserves distinct station names per group. -/
theorem mbt_keys_nodup_process (mt : Option (List (String × Window))) (today : Nat)
    (dr : DateRangeFields) (mbt : List (String × List Station))
    (h : mbt_station_keys_nodup mbt) :
    mbt_station_keys_nodup (process_date_range mt today mbt dr) := by
  unfold process_date_range
  split
  · exact h
  · split
    · exact h
    · split
      · exact h
      · exact mbt_keys_nodup_add _ _ _ h

/-- Folding fragments preserves distinct station names per group. -/
theorem mbt_keys_nodup_fold (mt : Option (List (String × Window))) (today : Nat) :
    ∀ (frs : List DateRangeFields) mbt, mbt_station_keys_nodup mbt →
      mbt_station_keys_nodup (List.foldl (process_date_range mt today) mbt frs) := by
  intro frs
  induction frs with
  | nil => intro mbt h; exact h
  | cons f rest ih =>
    intro mbt h
    rw [List.foldl_cons]
    exact ih _ (mbt_keys_nodup_process mt today f mbt h)

/-- C10: a raw station with an empty id list or an unknown first id is
emitted under the generic name "Station"; station names within every
emitted meal are pairwise distinct (the merge loop appends a station only
when its name is absent), so all unknown-id stations of one meal type
collapse into the single "Station" entry, deduplicated by item name — as
the concrete two-fragment run shows. -/
theorem c10_unknown_station_collapse :
    resolve_station_name [] = "Station"
    ∧ (∀ id0 ids, dict_lookup station_names id0 = none →
        resolve_station_name (id0 :: ids) = "Station")
    ∧ (∀ cat scat hall day cur today md,
        ∀ meal ∈ (scrape_dynamic_hall cat scat hall day cur today (.ok (some md))).meals,
          (station_keys meal.stations).Nodup)
    ∧ (scrape_dynamic_hall c4_catalog [] "Demo Hall" "monday" 720 0
        (.ok (some [⟨[c10_fragment_a, c10_fragment_b]⟩]))).meals =
      [{ meal_type := "Lunch", time := some "11:00 AM - 2:30 PM"
       , stations := [{ station := "Station"
                      , items := [⟨"Mystery Stew", none, [], []⟩,
                                  ⟨"Mystery Pie", none, [], []⟩] }] }] := by
  refine ⟨rfl, ?_, ?_, rfl⟩
  · intro id0 ids h
    have h' : dict_lookup station_names ((id0 :: ids).headD "") = none := h
    unfold resolve_station_name
    rw [h']
  · intro cat scat hall day cur today md meal hmeal
    have hmeal' : meal ∈ assemble_meals (get_meal_times_for_hall cat hall day)
        (collect_meals_by_type (get_meal_times_for_hall cat hall day) today md) := hmeal
    have hm := mem_assemble _ _ meal hmeal'
    have hmbt : mbt_station_keys_nodup
        (collect_meals_by_type (get_meal_times_for_hall cat hall day) today md) :=
      mbt_keys_nodup_fold _ today _ [] (fun p hp => absurd hp (List.not_mem_nil p))
    exact hmbt (meal.meal_type, meal.stations) (dict_lookup_mem _ _ _ hm.1)

/-- Witness for C10 on the concrete two-unknown-station run. -/
theorem c10_unknown_station_collapse_witness :
    (station_keys [(⟨"Station", [⟨"Mystery Stew", none, [], []⟩,
                                 ⟨"Mystery Pie", none, [], []⟩]⟩ : Station)]).Nodup :=
  c10_unknown_station_collapse.2.2.1 c4_catalog [] "Demo Hall" "monday" 720 0
    [⟨[c10_fragment_a, c10_fragment_b]⟩]
    { meal_type := "Lunch", time := some "11:00 AM - 2:30 PM"
    , stations := [⟨"Station", [⟨"Mystery Stew", none, [], []⟩,
                                ⟨"Mystery Pie", none, [], []⟩]⟩] } (by decide)

/-- Merging into a non-empty station list stays non-empty. -/
theorem merge_stations_ne_nil_of_ne (sd : List Station) :
    ∀ l, l ≠ [] → merge_stations l sd ≠ [] := by
  induction sd with
  | nil => intro l h; exact h
  | cons s tl ih =>
    intro l h
    rw [merge_stations_cons]
    exact ih _ (merge_station_ne_nil l s)

/-- Merging a non-empty fragment always leaves stations. -/
theorem merge_stations_cons_ne_nil (l : List Station) (s : Station) (tl : List Station) :
    merge_stations l (s :: tl) ≠ [] := by
  rw [merge_stations_cons]
  exact merge_stations_ne_nil_of_ne tl _ (merge_station_ne_nil l s)

/-- Effect of one fragment on the presence of a non-empty meal group: the
group becomes or stays present exactly when it was present before or the
fragment contributes to that meal type. -/
theorem has_nonempty_process (mt : Option (List (String × Window))) (today : Nat)
    (dr : DateRangeFields) (m : String) (mbt : List (String × List Station)) :
    has_nonempty_meal (process_date_range mt today mbt dr) m =
      (has_nonempty_meal mbt m || fragment_contributes_to mt today dr m) := by
  by_cases hd : is_today_in_date_range today dr = true
  · cases hm : mapped_meal_type dr with
    | none =>
      rw [process_skip_unmapped _ _ _ _ hm]
      rw [show fragment_contributes_to mt today dr m = false from by
        unfold fragment_contributes_to; rw [hm]; simp]
      rw [Bool.or_false]
    | some mp =>
      by_cases hb : meal_type_guard_blocks mt mp = true
      · rw [process_skip_blocked _ _ _ _ _ hm hb]
        rw [show fragment_contributes_to mt today dr m = false from by
          unfold fragment_contributes_to
          rw [hm]
          by_cases hmm : mp = m
          · subst hmm; rw [hb]; simp
          · simp [hmm]]
        rw [Bool.or_false]
      · have hb' : meal_type_guard_blocks mt mp = false := by
          cases hx : meal_type_guard_blocks mt mp
          · rfl
          · exact absurd hx hb
        rw [process_apply _ _ _ _ _ hd hm hb']
        cases hsd : build_stations dr.stations with
        | nil =>
          rw [show add_fragment_stations mbt mp [] = mbt from rfl]
          rw [show fragment_contributes_to mt today dr m = false from by
            unfold fragment_contributes_to; rw [hsd]; simp]
          rw [Bool.or_false]
        | cons s tl =>
          by_cases hmm : m = mp
          · subst hmm
            have h1 : has_nonempty_meal (add_fragment_stations mbt m (s :: tl)) m = true := by
              unfold has_nonempty_meal
              rw [dict_lookup_add_fragment_self]
              show (!(merge_stations ((dict_lookup mbt m).getD []) (s :: tl)).isEmpty) = true
              rw [isEmpty_false_of_ne_nil _ (merge_stations_cons_ne_nil _ s tl)]
              rfl
            have h2 : fragment_contributes_to mt today dr m = true := by
              unfold fragment_contributes_to
              rw [hd, hm, hb', hsd]
              simp
            rw [h1, h2, Bool.or_true]
          · have hlk : dict_lookup (add_fragment_stations mbt mp (s :: tl)) m =
                dict_lookup mbt m := by
              rw [add_fragment_stations_eq,
                dict_lookup_update_assoc_ne _ mp m (fun hx => hmm hx.symm)]
              split
              · rfl
              · rw [dict_lookup_append]
                cases hx : dict_lookup mbt m with
                | some v => rfl
                | none =>
                  rw [dict_lookup_cons, if_neg (by simp [Ne.symm hmm])]
                  rfl
            have hmm' : ¬ mp = m := fun hx => hmm hx.symm
            have h2 : fragment_contributes_to mt today dr m = false := by
              unfold fragment_contributes_to
              rw [hm]
              simp [hmm']
            unfold has_nonempty_meal
            rw [hlk, h2, Bool.or_false]
  · have hd' : is_today_in_date_range today dr = false := by
      cases hx : is_today_in_date_range today dr
      · rfl
      · exact absurd hx hd
    rw [process_skip_date _ _ _ _ hd']
    rw [show fragment_contributes_to mt today dr m = false from by
      unfold fragment_contributes_to; rw [hd']; simp]
    rw [Bool.or_false]

/-- Presence of a non-empty meal group after the whole fold. -/
theorem has_nonempty_fold (mt : Option (List (String × Window))) (today : Nat) :
    ∀ (frs : List DateRangeFields) (mbt : List (String × List Station)) (m : String),
      has_nonempty_meal (List.foldl (process_date_range mt today) mbt frs) m =
        (has_nonempty_meal mbt m ||
          frs.any (fun dr => fragment_contributes_to mt today dr m)) := by
  intro frs
  induction frs with
  | nil => intro mbt m; simp
  | cons f rest ih =>
    intro mbt m
    rw [List.foldl_cons, ih, has_nonempty_process, List.any_cons, Bool.or_assoc]

/-- The emitted meal types are the canonical order filtered by presence. -/
theorem assemble_map_meal_type (mt : Option (List (String × Window))) :
    ∀ (order : List String) (mbt : List (String × List Station)),
      (order.filterMap (assemble_one mt mbt)).map Meal.meal_type =
        order.filter (fun m => has_nonempty_meal mbt m) := by
  intro order
  induction order with
  | nil => intro mbt; rfl
  | cons a rest ih =>
    intro mbt
    rw [List.filterMap_cons, List.filter_cons]
    cases hl : dict_lookup mbt a with
    | none =>
      have h1 : assemble_one mt mbt a = none := by unfold assemble_one; rw [hl]
      have h2 : has_nonempty_meal mbt a = false := by unfold has_nonempty_meal; rw [hl]
      simp [h1, h2, ih mbt]
    | some stations =>
      by_cases hse : stations.isEmpty = true
      · have h1 : assemble_one mt mbt a = none := by
          unfold assemble_one
          rw [hl]
          show (if stations.isEmpty = true then none
            else some { meal_type := a, time := meal_time_label mt a
                      , stations := stations : Meal }) = none
          rw [if_pos hse]
        have h2 : has_nonempty_meal mbt a = false := by
          unfold has_nonempty_meal
          rw [hl]
          show (!stations.isEmpty) = false
          rw [hse]
          rfl
        simp [h1, h2, ih mbt]
      · have h1 : assemble_one mt mbt a =
            some { meal_type := a, time := meal_time_label mt a, stations := stations } := by
          unfold assemble_one
          rw [hl]
          show (if stations.isEmpty = true then none
            else some { meal_type := a, time := meal_time_label mt a
                      , stations := stations : Meal }) = _
          rw [if_neg hse]
        have h2 : has_nonempty_meal mbt a = true := by
          unfold has_nonempty_meal
          rw [hl]
          show (!stations.isEmpty) = true
          rw [isEmpty_false_of_ne_nil stations (fun hx => hse (by rw [hx]; rfl))]
          rfl
        simp [h1, h2, ih mbt]

/-- `List.any` is invariant under permutation. -/
theorem any_eq_of_perm {α : Type} (p : α → Bool) :
    ∀ {l l' : List α}, l.Perm l' → l.any p = l'.any p := by
  intro l l' h
  cases hx : l'.any p with
  | true =>
    rw [List.any_eq_true] at hx ⊢
    obtain ⟨x, hxl, hpx⟩ := hx
    exact ⟨x, h.mem_iff.2 hxl, hpx⟩
  | false =>
    cases hy : l.any p with
    | false => rfl
    | true =>
      rw [List.any_eq_true] at hy
      obtain ⟨x, hxl, hpx⟩ := hy
      have h2 : l'.any p = true := List.any_eq_true.2 ⟨x, h.mem_iff.1 hxl, hpx⟩
      rw [hx] at h2
      cases h2

/-- The emitted meal-type sequence is the canonical order filtered by the
order-free per-fragment contribution test. -/
theorem scrape_meals_map_filter (cat : List (String × HallConfig))
    (scat : List (String × StaticConfig)) (hall day : String) (cur today : Nat)
    (md : List Menu) :
    (scrape_dynamic_hall cat scat hall day cur today (.ok (some md))).meals.map
        Meal.meal_type =
      meal_order.filter (fun m =>
        ((md.map Menu.date_range_fields).flatten).any
          (fun dr => fragment_contributes_to (get_meal_times_for_hall cat hall day)
            today dr m)) := by
  show (meal_order.filterMap (assemble_one (get_meal_times_for_hall cat hall day)
      (collect_meals_by_type (get_meal_times_for_hall cat hall day) today md))).map
      Meal.meal_type = _
  rw [assemble_map_meal_type]
  refine List.filter_congr ?_
  intro m _
  rw [show collect_meals_by_type (get_meal_times_for_hall cat hall day) today md =
      List.foldl (process_date_range (get_meal_times_for_hall cat hall day) today) []
        ((md.map Menu.date_range_fields).flatten) from rfl]
  rw [has_nonempty_fold]
  rw [show has_nonempty_meal [] m = false from rfl, Bool.false_or]

/-- C9: the final meal list is ordered by the canonical meal sequence with
membership decided by an encounter-order-free condition (hence invariant
under permuting the upstream fragments); every Schedule Variant of the
catalog declares its meal names in that same canonical sequence; every
emitted meal's time label is the variant's window bounds formatted as
start-end; and the end-to-end Monday-noon Lunch example produces exactly
the specified record. -/
theorem c9_assembly_and_ordering :
    (∀ cat scat hall day cur today md,
      (scrape_dynamic_hall cat scat hall day cur today (.ok (some md))).meals.map
          Meal.meal_type =
        meal_order.filter (fun m =>
          ((md.map Menu.date_range_fields).flatten).any
            (fun dr => fragment_contributes_to (get_meal_times_for_hall cat hall day)
              today dr m)))
    ∧ (∀ cat scat hall day cur today md md',
        ((md.map Menu.date_range_fields).flatten).Perm
          ((md'.map Menu.date_range_fields).flatten) →
        (scrape_dynamic_hall cat scat hall day cur today (.ok (some md))).meals.map
            Meal.meal_type =
          (scrape_dynamic_hall cat scat hall day cur today (.ok (some md'))).meals.map
            Meal.meal_type)
    ∧ (∀ cat scat hall day cur today md l,
        get_meal_times_for_hall cat hall day = some l → l ≠ [] →
        ∀ meal ∈ (scrape_dynamic_hall cat scat hall day cur today (.ok (some md))).meals,
          ∃ w, dict_lookup l meal.meal_type = some w ∧
            meal.time = some (format_time_tuple w.start.1 w.start.2 ++ " - " ++
              format_time_tuple w.stop.1 w.stop.2))
    ∧ (HALL_MEAL_TIMES.all (fun p => (variant_meal_names p.2).all (fun names =>
        names == meal_order.filter (fun m => names.contains m))) = true)
    ∧ (scrape_dynamic_hall HALL_MEAL_TIMES STATIC_MENU_LOCATIONS "John Jay Dining Hall"
        "monday" 720 20240101 (.ok (some [⟨[c9_fragment]⟩]))).meals =
      [{ meal_type := "Lunch", time := some "11:00 AM - 2:30 PM"
       , stations := [{ station := "Grill"
                      , items := [⟨"Grilled Chicken Sandwich", none, [], []⟩] }] }]
    ∧ (scrape_dynamic_hall HALL_MEAL_TIMES STATIC_MENU_LOCATIONS "John Jay Dining Hall"
        "monday" 720 20240101 (.ok (some [⟨[c9_fragment]⟩]))).status = "open" := by
  refine ⟨scrape_meals_map_filter, ?_, ?_, by decide, rfl, rfl⟩
  · intro cat scat hall day cur today md md' hperm
    rw [scrape_meals_map_filter, scrape_meals_map_filter]
    refine List.filter_congr ?_
    intro m _
    exact any_eq_of_perm _ hperm
  · intro cat scat hall day cur today md l hmt hlne meal hmeal
    have hmeal' : meal ∈ assemble_meals (get_meal_times_for_hall cat hall day)
        (collect_meals_by_type (get_meal_times_for_hall cat hall day) today md) := hmeal
    have hm := mem_assemble _ _ meal hmeal'
    have hne : has_nonempty_meal
        (collect_meals_by_type (get_meal_times_for_hall cat hall day) today md)
        meal.meal_type = true := by
      unfold has_nonempty_meal
      rw [hm.1]
      show (!meal.stations.isEmpty) = true
      rw [isEmpty_false_of_ne_nil _ hm.2.1]
      rfl
    rw [show collect_meals_by_type (get_meal_times_for_hall cat hall day) today md =
        List.foldl (process_date_range (get_meal_times_for_hall cat hall day) today) []
          ((md.map Menu.date_range_fields).flatten) from rfl,
      has_nonempty_fold,
      show has_nonempty_meal [] meal.meal_type = false from rfl, Bool.false_or,
      List.any_eq_true] at hne
    obtain ⟨dr, hdr, hc⟩ := hne
    unfold fragment_contributes_to at hc
    simp only [Bool.and_eq_true] at hc
    obtain ⟨⟨⟨hc1, hc2⟩, hc3⟩, hc4⟩ := hc
    have hblocks : meal_type_guard_blocks (get_meal_times_for_hall cat hall day)
        meal.meal_type = false := by
      cases hx : meal_type_guard_blocks (get_meal_times_for_hall cat hall day) meal.meal_type
      · rfl
      · rw [hx] at hc3
        exact absurd hc3 (by decide)
    rw [hmt] at hblocks
    unfold meal_type_guard_blocks at hblocks
    have hblocks' : (!l.isEmpty && !(l.map Prod.fst).contains meal.meal_type) = false :=
      hblocks
    rw [isEmpty_false_of_ne_nil _ hlne] at hblocks'
    have hcont : (l.map Prod.fst).contains meal.meal_type = true := by
      cases hx : (l.map Prod.fst).contains meal.meal_type
      · rw [hx] at hblocks'
        exact absurd hblocks' (by decide)
      · rfl
    have hsome := dict_lookup_isSome_of_mem_keys meal.meal_type l (by simpa using hcont)
    obtain ⟨w, hw⟩ := Option.isSome_iff_exists.1 hsome
    refine ⟨w, hw, ?_⟩
    rw [hm.2.2.1, hmt]
    show (if l.isEmpty = true then none
      else match dict_lookup l meal.meal_type with
        | none => none
        | some w => some (format_time_tuple w.start.1 w.start.2 ++ " - " ++
            format_time_tuple w.stop.1 w.stop.2)) = _
    rw [if_neg (by rw [isEmpty_false_of_ne_nil _ hlne]; simp), hw]

/-- Witness for C9: the Lunch window 11:00-14:30 of the John Jay schedule
yields the label "11:00 AM - 2:30 PM". -/
theorem c9_assembly_and_ordering_witness :
    (some "11:00 AM - 2:30 PM" : Option String) =
      some (format_time_tuple 11 0 ++ " - " ++ format_time_tuple 14 30) := by
  obtain ⟨w, hw, hlabel⟩ := c9_assembly_and_ordering.2.2.1 HALL_MEAL_TIMES
    STATIC_MENU_LOCATIONS "John Jay Dining Hall" "monday" 720 20240101
    [⟨[c9_fragment]⟩]
    [("Breakfast", ⟨(9, 30), (11, 0)⟩), ("Lunch", ⟨(11, 0), (14, 30)⟩),
     ("Dinner", ⟨(17, 0), (21, 0)⟩)] rfl (by decide)
    { meal_type := "Lunch", time := some "11:00 AM - 2:30 PM"
    , stations := [⟨"Grill", [⟨"Grilled Chicken Sandwich", none, [], []⟩]⟩] } (by decide)
  have hw' : w = ⟨(11, 0), (14, 30)⟩ := by
    have h2 : some w = some (⟨(11, 0), (14, 30)⟩ : Window) := hw.symm.trans rfl
    exact Option.some_inj.1 h2
  rw [hw'] at hlabel
  exact hlabel
